import Mathlib

/-!
# Verification of the chicago-sms message-orchestration core

A shallow embedding, in Lean 4, of the core components of the chicago-sms
repository: the multi-window rate limiter (`server/middleware/rateLimiting.js`),
the program engine (`server/engines/programEngine.js`), the live-agent system
(`server/systems/agentSystem.js`), the broadcast system
(`server/systems/broadcastSystem.js`) and the inbound-message entry point of
the Railway server (`server/index.js`), together with the database uniqueness
constraints of `database/complete-postgres-schema.sql`.

Modelling conventions:
* Wall-clock instants and durations are natural numbers of milliseconds
  (JavaScript `Date.getTime()` values).
* Database tables are Lean lists of row structures, in insertion order; the
  schema's `UNIQUE` constraints are modelled at the insert operations that the
  source code performs against those tables.
* The message gateway (`smsService.sendMessage`) is an external collaborator
  that the specification puts out of scope; outbound sends are modelled as
  appends to a send log and always succeed.  Message metadata objects are not
  modelled.
* JavaScript `Map` objects are association lists in insertion order with the
  `Map.set` update-or-append semantics.
-/

namespace ChicagoSms

/-! ## Generic helpers: JS string/Map primitives -/

/-- JavaScript `String.prototype.trim` (whitespace stripped from both ends). -/
def jsTrim (s : String) : String :=
  ⟨((s.data.dropWhile Char.isWhitespace).reverse.dropWhile Char.isWhitespace).reverse⟩

/-- JavaScript `String.prototype.toLowerCase` (ASCII case mapping). -/
def jsToLower (s : String) : String := ⟨s.data.map Char.toLower⟩

/-- JavaScript `String.prototype.toUpperCase` (ASCII case mapping). -/
def jsToUpper (s : String) : String := ⟨s.data.map Char.toUpper⟩

/-- Occurrence test for `pre` as a leading segment of `hay` (JS `startsWith`). -/
def listStartsWith (hay pre : List Char) : Bool :=
  hay.take pre.length == pre

/-- Occurrence test for `needle` anywhere inside `hay` (JS `includes`). -/
def listContainsSub (hay needle : List Char) : Bool :=
  if listStartsWith hay needle then true
  else
    match hay with
    | [] => false
    | _ :: t => listContainsSub t needle

/-- JS `a.includes(b)` on strings. -/
def jsIncludes (hay needle : String) : Bool :=
  listContainsSub hay.toList needle.toList

/-- Lookup in a JS `Map` modelled as an association list (`Map.get`). -/
def lookupAssoc {α : Type} (m : List (String × α)) (k : String) : Option α :=
  (m.find? (fun p => p.1 == k)).map (·.2)

/-- Removal from a JS `Map` modelled as an association list (`Map.delete`). -/
def eraseAssoc {α : Type} (m : List (String × α)) (k : String) : List (String × α) :=
  m.filter (fun p => p.1 != k)

/-- JS object property assignment `o[k] = v` on a string-keyed object. -/
def jsObjectSet (o : List (String × String)) (k v : String) : List (String × String) :=
  if o.any (fun p => p.1 == k) then
    o.map (fun p => if p.1 == k then (k, v) else p)
  else o ++ [(k, v)]

/-! ## Rate limiter (`server/middleware/rateLimiting.js`, `RateLimitManager`) -/

/-- One row of the `rate_limits` table
(`UNIQUE(phone, time_window, window_start)` in the schema). -/
structure RateLimitRow where
  phone : String
  timeWindow : String
  windowStart : Nat
  messageCount : Nat
deriving Repr, DecidableEq

abbrev RateDb := List RateLimitRow

/-- The `this.config` limits of `RateLimitManager` (defaults from the
constructor; hot-reloaded values are just a different record). -/
structure RateLimitConfig where
  perMinute : Nat
  perHour : Nat
  perDay : Nat
  globalPerMinute : Nat
  globalPerHour : Nat
  globalPerDay : Nat
deriving Repr, DecidableEq

/-- One entry of the `checks` array in `checkPhoneRateLimit` /
`checkGlobalRateLimit`. -/
structure RateCheck where
  window : String
  duration : Nat
  limit : Nat
deriving Repr, DecidableEq

/-- The `checks` array of `checkPhoneRateLimit`: minute, hour, day. -/
def phoneChecks (cfg : RateLimitConfig) : List RateCheck :=
  [⟨"minute", 60000, cfg.perMinute⟩, ⟨"hour", 3600000, cfg.perHour⟩,
   ⟨"day", 86400000, cfg.perDay⟩]

/-- The `checks` array of `checkGlobalRateLimit`. -/
def globalChecks (cfg : RateLimitConfig) : List RateCheck :=
  [⟨"minute", 60000, cfg.globalPerMinute⟩, ⟨"hour", 3600000, cfg.globalPerHour⟩,
   ⟨"day", 86400000, cfg.globalPerDay⟩]

/-- Models `SELECT COALESCE(SUM(message_count), 0) ... WHERE phone = ? AND
time_window = ? AND window_start = ?`. -/
def sumCountsPhone (db : RateDb) (phone window : String) (wstart : Nat) : Nat :=
  (db.filter (fun r =>
    r.phone == phone && r.timeWindow == window && r.windowStart == wstart)).foldl
    (fun a r => a + r.messageCount) 0

/-- Models `SELECT COALESCE(SUM(message_count), 0) ... WHERE time_window = ? AND
window_start = ?` (all phones). -/
def sumCountsAll (db : RateDb) (window : String) (wstart : Nat) : Nat :=
  (db.filter (fun r => r.timeWindow == window && r.windowStart == wstart)).foldl
    (fun a r => a + r.messageCount) 0

/-- Result of `checkPhoneRateLimit`: either `{allowed: true}` or the denial
object with `window`, `current`, `limit`, `resetAt`, `retryAfter`. -/
inductive RateCheckResult where
  | allowed
  | denied (window : String) (current limit resetAt retryAfter : Nat)
deriving Repr, DecidableEq

/-- Result of `checkGlobalRateLimit` (no `retryAfter` field in the source). -/
inductive GlobalCheckResult where
  | allowed
  | denied (window : String) (current limit resetAt : Nat)
deriving Repr, DecidableEq

/-- The `for (const {window, duration, limit} of checks)` loop of
`checkPhoneRateLimit`.  `windowStart = floor(now / duration) * duration`;
`retryAfter = ceil((windowStart + duration - now) / 1000)`. -/
def checkWindowsLoop (db : RateDb) (phone : String) (now : Nat) :
    List RateCheck → RateCheckResult
  | [] => .allowed
  | c :: rest =>
    let windowStart := now / c.duration * c.duration
    let currentCount := sumCountsPhone db phone c.window windowStart
    if c.limit ≤ currentCount then
      .denied c.window currentCount c.limit (windowStart + c.duration)
        ((windowStart + c.duration - now + 999) / 1000)
    else checkWindowsLoop db phone now rest

/-- Models `RateLimitManager.checkPhoneRateLimit(phone)` at time `now`. -/
def checkPhoneRateLimit (cfg : RateLimitConfig) (db : RateDb) (phone : String)
    (now : Nat) : RateCheckResult :=
  checkWindowsLoop db phone now (phoneChecks cfg)

/-- The window loop of `checkGlobalRateLimit`; the denial window name is
prefixed with `global_`. -/
def checkGlobalLoop (db : RateDb) (now : Nat) :
    List RateCheck → GlobalCheckResult
  | [] => .allowed
  | c :: rest =>
    let windowStart := now / c.duration * c.duration
    let currentCount := sumCountsAll db c.window windowStart
    if c.limit ≤ currentCount then
      .denied ("global_" ++ c.window) currentCount c.limit (windowStart + c.duration)
    else checkGlobalLoop db now rest

/-- Models `RateLimitManager.checkGlobalRateLimit()` at time `now`. -/
def checkGlobalRateLimit (cfg : RateLimitConfig) (db : RateDb) (now : Nat) :
    GlobalCheckResult :=
  checkGlobalLoop db now (globalChecks cfg)

/-- Models `INSERT ... ON DUPLICATE KEY UPDATE message_count = message_count + 1` on
`rate_limits` for one window (the key is `UNIQUE(phone, time_window,
window_start)`). -/
def rlUpsert (db : RateDb) (phone window : String) (wstart : Nat) : RateDb :=
  if db.any (fun r =>
      r.phone == phone && r.timeWindow == window && r.windowStart == wstart) then
    db.map (fun r =>
      if r.phone == phone && r.timeWindow == window && r.windowStart == wstart then
        { r with messageCount := r.messageCount + 1 }
      else r)
  else db ++ [⟨phone, window, wstart, 1⟩]

/-- Models `RateLimitManager.updateRateLimit(phone)` at time `now`: increments the
minute, hour and day counters. -/
def updateRateLimit (db : RateDb) (phone : String) (now : Nat) : RateDb :=
  [(("minute" : String), (60000 : Nat)), ("hour", 3600000), ("day", 86400000)].foldl
    (fun acc wd => rlUpsert acc phone wd.1 (now / wd.2 * wd.2)) db

/-- Spec reading of the phone check ("The first window (checked in increasing
granularity: minute, then hour, then day) that is at or over its limit
short-circuits and reports denial for that window; if all pass, allow", with
`windowStart = floor(now / windowDuration) * windowDuration`), phrased as a
first-offender search over the ordered window list. -/
def checkPhoneRateLimitSpec (cfg : RateLimitConfig) (db : RateDb) (phone : String)
    (now : Nat) : RateCheckResult :=
  match (phoneChecks cfg).find? (fun c =>
      decide (c.limit ≤ sumCountsPhone db phone c.window (now / c.duration * c.duration))) with
  | some c =>
    let windowStart := now / c.duration * c.duration
    .denied c.window (sumCountsPhone db phone c.window windowStart) c.limit
      (windowStart + c.duration) ((windowStart + c.duration - now + 999) / 1000)
  | none => .allowed

theorem checkWindowsLoop_eq_find (db : RateDb) (phone : String) (now : Nat)
    (checks : List RateCheck) :
    checkWindowsLoop db phone now checks =
      match checks.find? (fun c =>
          decide (c.limit ≤ sumCountsPhone db phone c.window (now / c.duration * c.duration))) with
      | some c =>
        let windowStart := now / c.duration * c.duration
        .denied c.window (sumCountsPhone db phone c.window windowStart) c.limit
          (windowStart + c.duration) ((windowStart + c.duration - now + 999) / 1000)
      | none => .allowed := by
  induction checks with
  | nil => rfl
  | cons c rest ih =>
    by_cases h : c.limit ≤ sumCountsPhone db phone c.window (now / c.duration * c.duration)
    · simp [checkWindowsLoop, List.find?, h]
    · simp [checkWindowsLoop, List.find?, h, ih]

/-- C2: `checkPhoneRateLimit` examines minute, then hour, then day, each window
aligned as `windowStart = floor(now / windowDuration) * windowDuration`; the
first window whose summed count is at or over its configured limit produces the
denial result identifying that window (current, limit, resetAt, retryAfter),
and if no window is at or over its limit the result is allowed. -/
theorem checkPhoneRateLimit_first_offending_window (cfg : RateLimitConfig)
    (db : RateDb) (phone : String) (now : Nat) :
    checkPhoneRateLimit cfg db phone now = checkPhoneRateLimitSpec cfg db phone now := by
  simpa [checkPhoneRateLimit, checkPhoneRateLimitSpec] using
    checkWindowsLoop_eq_find db phone now (phoneChecks cfg)

/-! ## Input validators and condition matching
(`server/engines/programEngine.js`, `validateInput` / `evaluateCondition`) -/

/-- Leading-whitespace removal performed by JS `parseFloat`. -/
def dropWs (cs : List Char) : List Char := cs.dropWhile (·.isWhitespace)

/-- Optional sign consumed by JS `parseFloat`. -/
def dropSign : List Char → List Char
  | '+' :: r => r
  | '-' :: r => r
  | cs => cs

/-- Models `isNaN(parseFloat(input))`: true iff the string (after whitespace and an
optional sign) starts with no digit, no `.digit`, and no `Infinity`. -/
def jsParseFloatIsNaN (s : String) : Bool :=
  match dropSign (dropWs s.toList) with
  | [] => true
  | '.' :: c :: _ => !c.isDigit
  | ['.'] => true
  | c :: rest =>
    if c.isDigit then false
    else !((c :: rest).take 8 == "Infinity".toList)

/-- Character class `[^\s@]` of the email regex. -/
def emailCharOk (c : Char) : Bool := !c.isWhitespace && c != '@'

/-- Models `/^[^\s@]+@[^\s@]+\.[^\s@]+$/.test(input)`: one `@` splitting the string
into a nonempty space-free local part and a remainder that is space-free,
`@`-free and has a `.` that is neither its first nor its last character. -/
def emailRegexTest (s : String) : Bool :=
  let cs := s.toList
  let a := cs.takeWhile (· != '@')
  match cs.dropWhile (· != '@') with
  | '@' :: r =>
    !a.isEmpty && a.all emailCharOk && !r.isEmpty && r.all emailCharOk &&
      ((r.drop 1).dropLast.contains '.')
  | _ => false

/-- Character class `[\d\s\-\(\)]` of the phone regex. -/
def phoneCharOk (c : Char) : Bool :=
  c.isDigit || c.isWhitespace || c == '-' || c == '(' || c == ')'

/-- Models `/^\+?[\d\s\-\(\)]+$/.test(input)`. -/
def phoneRegexTest (s : String) : Bool :=
  match s.toList with
  | '+' :: rest => !rest.isEmpty && rest.all phoneCharOk
  | cs => !cs.isEmpty && cs.all phoneCharOk

/-- One validator object of an `input` step (`{type, value}`). -/
inductive Validator where
  | required
  | min_length (value : Nat)
  | max_length (value : Nat)
  | numeric
  | email
  | phone
deriving Repr, DecidableEq

/-- One case of the `switch (validator.type)` in `validateInput`: `true` means
the validator does not fire its `return false`. -/
def validatorPasses (input : String) (v : Validator) : Bool :=
  match v with
  | .required => !(input == "" || (jsTrim input).length == 0)
  | .min_length value => !(input.length < value)
  | .max_length value => !(value < input.length)
  | .numeric => !(jsParseFloatIsNaN input)
  | .email => emailRegexTest input
  | .phone => phoneRegexTest input

/-- Models `ProgramEngine.validateInput(input, validators)`: the first failing
validator returns `false`, otherwise `true`. -/
def validateInput (input : String) : List Validator → Bool
  | [] => true
  | v :: rest => if validatorPasses input v then validateInput input rest else false

/-- JS `parseFloat` as an exact rational (IEEE-754 rounding is not modelled;
`Infinity` is mapped to `none`, which gives the same comparison results
against the finite `min`/`max` bounds of a `number_range` condition). -/
def jsParseFloatQ (s : String) : Option ℚ :=
  let cs := dropWs s.toList
  let sign : ℚ := match cs with | '-' :: _ => -1 | _ => 1
  let cs1 := dropSign cs
  let intPart := cs1.takeWhile (·.isDigit)
  let rest1 := cs1.dropWhile (·.isDigit)
  let fracPart := match rest1 with
    | '.' :: r => r.takeWhile (·.isDigit)
    | _ => []
  let rest2 := match rest1 with
    | '.' :: r => r.dropWhile (·.isDigit)
    | r => r
  if intPart.isEmpty && fracPart.isEmpty then none
  else
    let digitsVal : List Char → Nat := fun ds => ds.foldl (fun a c => a * 10 + (c.toNat - 48)) 0
    let base : ℚ := (digitsVal intPart : ℚ) + (digitsVal fracPart : ℚ) / ((10 : ℚ) ^ fracPart.length)
    let expVal : Int := match rest2 with
      | 'e' :: r | 'E' :: r =>
        match r with
        | '-' :: r2 => -(Int.ofNat (digitsVal (r2.takeWhile (·.isDigit))))
        | '+' :: r2 => Int.ofNat (digitsVal (r2.takeWhile (·.isDigit)))
        | r2 => Int.ofNat (digitsVal (r2.takeWhile (·.isDigit)))
      | _ => 0
    some (sign * base * (10 : ℚ) ^ expVal)

/-- The match kind and payload of one condition object
(`{type, value, min, max}`). -/
inductive CondTest where
  | equals (value : String)
  | contains (value : String)
  | starts_with (value : String)
  | regex (value : String)
  | number_range (min max : ℚ)
deriving Repr, DecidableEq

/-- One entry of a condition step's `conditions` array. -/
structure Condition where
  test : CondTest
  next_step_id : Nat
deriving Repr, DecidableEq

/-- Models `ProgramEngine.evaluateCondition(condition, userMessage, stepData)`.  The
`regex` case (`new RegExp(value, 'i').test(message)`) is modelled for
metacharacter-free patterns, where the case-insensitive test is substring
containment. -/
def evaluateCondition (c : CondTest) (userMessage : String) : Bool :=
  match c with
  | .equals value => jsTrim (jsToLower userMessage) == jsToLower value
  | .contains value => jsIncludes (jsToLower userMessage) (jsToLower value)
  | .starts_with value =>
    listStartsWith (jsToLower userMessage).toList (jsToLower value).toList
  | .regex value => jsIncludes (jsToLower userMessage) (jsToLower value)
  | .number_range min max =>
    match jsParseFloatQ userMessage with
    | none => false
    | some num => decide (min ≤ num) && decide (num ≤ max)

/-- The `for (const condition of conditions)` loop of `executeConditionStep`
with its `break` on the first match. -/
def findMatchedCondition (conds : List Condition) (userMessage : String) :
    Option Condition :=
  match conds with
  | [] => none
  | c :: rest =>
    if evaluateCondition c.test userMessage then some c
    else findMatchedCondition rest userMessage

/-! ## Data model: table rows and in-process state -/

/-- One row of `contacts`. -/
structure Contact where
  id : Nat
  name : String
  phone : String
  isActive : Bool
deriving Repr, DecidableEq

/-- One row of `groups`. -/
structure Group where
  id : Nat
  name : String
  isDefault : Bool
deriving Repr, DecidableEq

/-- One row of `contact_groups`. -/
structure ContactGroup where
  contactId : Nat
  groupId : Nat
deriving Repr, DecidableEq

/-- One row of `agents` (with `trigger_words` already JSON-parsed). -/
structure AgentRow where
  id : Nat
  name : String
  phone : String
  isAvailable : Bool
  isActive : Bool
  triggerWords : List String
  maxConcurrentChats : Nat
deriving Repr, DecidableEq

/-- One step object of a program's `program_data.steps` array (tagged by its
`type` field; unrecognised types hit the `default` branch of `executeStep`). -/
inductive Step where
  | message (content : String)
  | delay (seconds : Nat)
  | condition (conditions : List Condition) (default_next_step_id : Option Nat)
  | input (validators : Option (List Validator)) (error_message : Option String)
      (variable_name : Option String)
  | agent_connect (message : Option String)
  | unknown (stepType : String)
deriving Repr, DecidableEq

/-- Parsed `program_data`. -/
structure ProgramData where
  steps : List Step
deriving Repr, DecidableEq

/-- One row of `programs`. -/
structure ProgramRow where
  id : Nat
  name : String
  programData : ProgramData
  isActive : Bool
  isBaseProgram : Bool
deriving Repr, DecidableEq

/-- One row of `program_states`
(`UNIQUE(program_id, contact_id)` in the schema). -/
structure PSRow where
  id : Nat
  programId : Nat
  contactId : Nat
  currentStep : Nat
  stepData : List (String × String)
  isPaused : Bool
  nextActionAt : Option Nat
deriving Repr, DecidableEq

/-- One row of `chat_sessions`. -/
structure DbSession where
  id : Nat
  contactId : Option Nat
  agentId : Nat
  sessionKey : String
  status : String
  endedAt : Option Nat
deriving Repr, DecidableEq

/-- One value of the in-memory `activeSessions` map of `AgentSystem`. -/
structure SessionData where
  sessionId : Nat
  contactId : Option Nat
  agentId : Nat
  userPhone : String
  agentPhone : String
deriving Repr, DecidableEq

/-- One value of the in-memory `pendingConnections` map of `AgentSystem`. -/
structure PendingConn where
  userPhone : String
  contactId : Option Nat
  initialMessage : String
  requestTime : Nat
  notifiedAgents : List Nat
deriving Repr, DecidableEq

/-- One row of the `messages` table (metadata columns not modelled). -/
structure MsgRow where
  direction : String
  fromPhone : String
  toPhone : String
  content : String
  msgType : String
deriving Repr, DecidableEq

/-- One outbound send through `smsService.sendMessage` (the message gateway,
an external collaborator; modelled as always succeeding). -/
structure SendRec where
  toPhone : String
  content : String
  msgType : String
deriving Repr, DecidableEq

/-- One row of `broadcasts`. -/
structure BroadcastRow where
  id : Nat
  name : String
  content : String
  totalRecipients : Nat
  sentCount : Nat
  failedCount : Nat
  status : String
  scheduledAt : Option Nat
  sentAt : Option Nat
  errorMessage : Option String
  createdBy : String
deriving Repr, DecidableEq

/-- One row of `broadcast_recipients`. -/
structure BroadcastRecipRow where
  id : Nat
  broadcastId : Nat
  contactId : Option Nat
  groupId : Option Nat
  phone : String
  status : String
  errorMessage : Option String
  sentAt : Option Nat
deriving Repr, DecidableEq

/-- The whole observable state of the single-process orchestrator: the
database tables, the in-memory maps of `AgentSystem` and `BroadcastSystem`,
the send log of the message gateway, and the wall clock.  The `next*` /
`keyCounter` fields model auto-increment ids and fresh session keys
(`crypto.randomBytes` in the source). -/
structure Sys where
  now : Nat
  contacts : List Contact
  groups : List Group
  contactGroups : List ContactGroup
  agents : List AgentRow
  programs : List ProgramRow
  programStates : List PSRow
  programAssignments : List (Nat × Option Nat × Option Nat)
  dbSessions : List DbSession
  activeSessions : List (String × SessionData)
  sessionTimeouts : List String
  pendingConnections : List (String × PendingConn)
  messagesLog : List MsgRow
  sent : List SendRec
  broadcasts : List BroadcastRow
  broadcastRecipients : List BroadcastRecipRow
  sendingQueue : List Nat
  rateCfg : RateLimitConfig
  rateDb : RateDb
  nextContactId : Nat
  nextSessionId : Nat
  nextProgramStateId : Nat
  nextBroadcastId : Nat
  nextRecipientId : Nat
  keyCounter : Nat
deriving Repr, DecidableEq

/-- A system with empty tables and the default rate-limit configuration from
the `RateLimitManager` constructor. -/
def Sys.empty : Sys where
  now := 0
  contacts := []
  groups := []
  contactGroups := []
  agents := []
  programs := []
  programStates := []
  programAssignments := []
  dbSessions := []
  activeSessions := []
  sessionTimeouts := []
  pendingConnections := []
  messagesLog := []
  sent := []
  broadcasts := []
  broadcastRecipients := []
  sendingQueue := []
  rateCfg := ⟨10, 100, 500, 100, 1000, 5000⟩
  rateDb := []
  nextContactId := 1
  nextSessionId := 1
  nextProgramStateId := 1
  nextBroadcastId := 1
  nextRecipientId := 1
  keyCounter := 0

/-- An outbound send through the gateway: append to the send log. -/
def sendSys (st : Sys) (toPhone content msgType : String) : Sys :=
  { st with sent := st.sent ++ [⟨toPhone, content, msgType⟩] }

/-- Models `UPDATE program_states SET ... WHERE id = ?`. -/
def updatePS (st : Sys) (psId : Nat) (f : PSRow → PSRow) : Sys :=
  { st with programStates :=
      st.programStates.map (fun r => if r.id == psId then f r else r) }

/-! ## Program engine (`server/engines/programEngine.js`) -/

/-- Models `ProgramEngine.jumpToStep(programState, stepId)`. -/
def jumpToStep (st : Sys) (ps : PSRow) (stepId : Nat) : Sys :=
  updatePS st ps.id (fun r => { r with currentStep := stepId, nextActionAt := none })

/-- Models `ProgramEngine.advanceToNextStep(programState, currentStep)`: purely
positional, `current_step + 1` computed from the in-memory state object. -/
def advanceToNextStep (st : Sys) (ps : PSRow) : Sys :=
  updatePS st ps.id (fun r =>
    { r with currentStep := ps.currentStep + 1, nextActionAt := none })

/-- Models `UPDATE program_states SET step_data = ? WHERE id = ?`. -/
def setPSStepData (st : Sys) (psId : Nat) (d : List (String × String)) : Sys :=
  updatePS st psId (fun r => { r with stepData := d })

/-- Models `toLocaleTimeString()` is environment dependent; modelled as a plain
decimal rendering of the clock. -/
def formatTime (now : Nat) : String := toString now

/-- Models `toLocaleDateString()`, modelled like `formatTime`. -/
def formatDate (now : Nat) : String := "date " ++ toString now

/-- Models `ProgramEngine.replaceVariables(content, stepData)`. -/
def replaceVariables (st : Sys) (content : String)
    (stepData : List (String × String)) : String :=
  let r1 := stepData.foldl
    (fun acc kv => acc.replace ("\x7b\x7b" ++ kv.1 ++ "\x7d\x7d") kv.2) content
  let r2 := r1.replace "\x7b\x7bcurrent_time\x7d\x7d" (formatTime st.now)
  let r3 := r2.replace "\x7b\x7bcurrent_date\x7d\x7d" (formatDate st.now)
  r3.replace "\x7b\x7bsystem_name\x7d\x7d" "SMS System"

/-- Models `ProgramEngine.executeMessageStep`. -/
def executeMessageStep (st : Sys) (ps : PSRow) (content phone : String) : Sys :=
  let msg := replaceVariables st content ps.stepData
  let st1 := sendSys st phone msg "program"
  advanceToNextStep st1 ps

/-- Models `ProgramEngine.executeDelayStep`: records the deadline and marks the state
waiting; it does not advance `current_step`. -/
def executeDelayStep (st : Sys) (ps : PSRow) (seconds : Nat) : Sys :=
  updatePS st ps.id (fun r =>
    { r with nextActionAt := some (st.now + seconds * 1000),
             stepData := [("waiting_for_delay", "true")] })

/-- Models `ProgramEngine.executeConditionStep`. -/
def executeConditionStep (st : Sys) (ps : PSRow) (conditions : List Condition)
    (defaultNext : Option Nat) (userMessage : String) : Sys :=
  match findMatchedCondition conditions userMessage with
  | some c => jumpToStep st ps c.next_step_id
  | none =>
    match defaultNext with
    | some d => jumpToStep st ps d
    | none => advanceToNextStep st ps

/-- The fields of an `input` step used by `executeInputStep`. -/
structure InputStepData where
  validators : Option (List Validator)
  error_message : Option String
  variable_name : Option String
deriving Repr, DecidableEq

/-- Outcome of a step executor that can raise a JavaScript `ReferenceError`. -/
inductive JsResult (α : Type) where
  | ok (value : α)
  | referenceError (varName : String)
deriving Repr

/-- Models `ProgramEngine.executeInputStep(programState, step, userMessage)`.  In the
branch that should send `step.error_message`, the source reads the variable
`phone`, which is not in scope in that function — the call raises
`ReferenceError: phone is not defined` before any message is sent or any row
is written. -/
def executeInputStep (st : Sys) (ps : PSRow) (step : InputStepData)
    (userMessage : Option String) : JsResult Sys :=
  match userMessage with
  | none => .ok st
  | some m =>
    if m == "" then .ok st
    else
      match step.validators with
      | some vs =>
        if validateInput m vs then
          .ok (advanceToNextStep
            (setPSStepData st ps.id
              (jsObjectSet ps.stepData (step.variable_name.getD "user_input") m)) ps)
        else
          match step.error_message with
          | some _ => .referenceError "phone"
          | none => .ok st
      | none =>
        .ok (advanceToNextStep
          (setPSStepData st ps.id
            (jsObjectSet ps.stepData (step.variable_name.getD "user_input") m)) ps)

/-- Models `COUNT(*) FROM chat_sessions WHERE agent_id = ? AND status = 'active'`. -/
def activeChatCount (st : Sys) (agentId : Nat) : Nat :=
  (st.dbSessions.filter (fun s => s.agentId == agentId && s.status == "active")).length

/-- Stable insertion sort by an ascending natural key (models SQL
`ORDER BY active_chats ASC`; the tiebreak among equal keys is unspecified in
SQL and modelled as stable). -/
def insertByKey {α : Type} (key : α → Nat) (a : α) : List α → List α
  | [] => [a]
  | b :: rest =>
    if key b ≤ key a then b :: insertByKey key a rest else a :: b :: rest

/-- See `insertByKey`. -/
def sortByKeyAsc {α : Type} (key : α → Nat) : List α → List α
  | [] => []
  | a :: rest => insertByKey key a (sortByKeyAsc key rest)

/-- The available-agents query of `ProgramEngine.requestAgentConnection`:
active, available, under `max_concurrent_chats`, ordered by active chats. -/
def availableAgentsPE (st : Sys) : List AgentRow :=
  sortByKeyAsc (fun a => activeChatCount st a.id)
    (st.agents.filter (fun a =>
      a.isActive && a.isAvailable && activeChatCount st a.id < a.maxConcurrentChats))

/-- Models `ProgramEngine.requestAgentConnection(userPhone, message)`: this engine-side
helper only notifies agents and the user; it does not create a pending
connection (that map belongs to `AgentSystem`). -/
def requestAgentConnectionPE (st : Sys) (userPhone message : String) : Sys :=
  let avail := availableAgentsPE st
  if avail.isEmpty then
    sendSys st userPhone
      "כל הסוכנים שלנו עסוקים כרגע. אנא נסה שוב מאוחר יותר או שלח הודעה והן יגיבו בהקדם."
      "system"
  else
    let connectionMessage :=
      "חיבור שליח חדש מ: " ++ userPhone ++ "\nהודעה: " ++ message ++
        "\nהשב \"ACCEPT\" כדי לקבל את החיבור."
    let st1 := avail.foldl
      (fun acc a => sendSys acc a.phone connectionMessage "agent_request") st
    sendSys st1 userPhone "מחבר אותך לשליח... אנא המתן." "system"

/-- Models `ProgramEngine.executeAgentConnectStep`. -/
def executeAgentConnectStep (st : Sys) (ps : PSRow) (stepMessage : Option String)
    (phone : String) : Sys :=
  let st1 := requestAgentConnectionPE st phone
    (stepMessage.getD "User requesting agent assistance")
  updatePS st1 ps.id (fun r =>
    { r with isPaused := true, stepData := [("waiting_for_agent", "true")] })

/-- Models `ProgramEngine.executeStep`: dispatch on `step.type`.  A `condition` step
reached with a null `userMessage` makes `evaluateCondition` throw for the
string match kinds; the exception is caught in `executeProgram`, leaving the
state as it was.  A `ReferenceError` from `executeInputStep` propagates the
same way. -/
def executeStep (st : Sys) (ps : PSRow) (step : Step) (phone : String)
    (userMessage : Option String) : Sys :=
  match step with
  | .message content => executeMessageStep st ps content phone
  | .delay seconds => executeDelayStep st ps seconds
  | .condition conds dflt =>
    match userMessage with
    | some m => executeConditionStep st ps conds dflt m
    | none => st
  | .input vs em vn =>
    match executeInputStep st ps ⟨vs, em, vn⟩ userMessage with
    | .ok st2 => st2
    | .referenceError _ => st
  | .agent_connect m => executeAgentConnectStep st ps m phone
  | .unknown _ => st

/-- Models `ProgramEngine.getProgramState(programId, contactId)`
(`if (!contactId) return null`). -/
def getProgramState (st : Sys) (pid : Nat) (cid : Option Nat) : Option PSRow :=
  match cid with
  | none => none
  | some c => st.programStates.find? (fun r => r.programId == pid && r.contactId == c)

/-- Models `ProgramEngine.createProgramState(programId, contactId)`: a plain
`INSERT INTO program_states`, checked against the schema's
`UNIQUE(program_id, contact_id)`; inserting an existing pair raises
(modelled as `.error`). -/
def createProgramState (st : Sys) (pid : Nat) (cid : Option Nat) :
    Except Unit (Sys × Option PSRow) :=
  match cid with
  | none => .ok (st, none)
  | some c =>
    if st.programStates.any (fun r => r.programId == pid && r.contactId == c) then
      .error ()
    else
      let row : PSRow := ⟨st.nextProgramStateId, pid, c, 0, [], false, none⟩
      .ok ({ st with programStates := st.programStates ++ [row],
                     nextProgramStateId := st.nextProgramStateId + 1 }, some row)

/-- The tail of `executeProgram` once the state row is in hand: pick
`programData.steps[current_step] || programData.steps[0]` (a halt when
neither exists) and execute it. -/
def execProgramStep (pd : ProgramData) (phone : String)
    (userMessage : Option String) (st1 : Sys) (ps : PSRow) : Sys :=
  match (pd.steps.get? ps.currentStep).orElse (fun _ => pd.steps.get? 0) with
  | none => st1
  | some step => executeStep st1 ps step phone userMessage

/-- Models `ProgramEngine.executeProgram(programId, contactId, phone, userMessage,
programData)`: lazily get-or-create the state row, then `execProgramStep`.  A
null `contactId` leaves `programState` null and the subsequent property access
throws into the function's catch; an insert race would be caught the same
way. -/
def executeProgram (st : Sys) (pid : Nat) (cid : Option Nat) (phone : String)
    (userMessage : Option String) (pd : ProgramData) : Sys :=
  match cid with
  | none => st
  | some c =>
    match getProgramState st pid (some c) with
    | some ps => execProgramStep pd phone userMessage st ps
    | none =>
      match createProgramState st pid (some c) with
      | .ok (st2, some ps) => execProgramStep pd phone userMessage st2 ps
      | .ok (_, none) => st
      | .error _ => st

/-- Models `ProgramEngine.processBaseProgram`: every `is_base_program && is_active`
program is executed for the message. -/
def processBaseProgram (st : Sys) (fromPhone msg : String)
    (contact : Option Contact) : Sys :=
  (st.programs.filter (fun p => p.isBaseProgram && p.isActive)).foldl
    (fun acc p => executeProgram acc p.id (contact.map (·.id)) fromPhone (some msg)
      p.programData) st

/-- Models `ProgramEngine.processContactPrograms`: the loop body calls
`this.processUserResponse`, which is not defined anywhere in the source, so the
first iteration raises a `TypeError` that is caught by `processMessage`'s
try/catch.  The returned flag records whether that exception fired (i.e. the
contact had at least one active non-paused program state). -/
def processContactPrograms (st : Sys) (contactId : Nat) : Sys × Bool :=
  let activeStates := st.programStates.filter (fun ps =>
    ps.contactId == contactId && !ps.isPaused &&
      st.programs.any (fun p => p.id == ps.programId && p.isActive))
  (st, !activeStates.isEmpty)

/-- Models `ProgramEngine.checkAgentTriggers`: any active+available agent's trigger
word, or a universal trigger word, contained (case-insensitively) in the
message requests an agent connection.  The source loops with an early return;
since every match triggers the same call, the loop is an existence test. -/
def checkAgentTriggers (st : Sys) (fromPhone msg : String) : Sys :=
  if (st.agents.filter (fun a => a.isActive && a.isAvailable)).any
      (fun a => a.triggerWords.any
        (fun t => jsIncludes (jsToLower msg) (jsToLower t))) then
    requestAgentConnectionPE st fromPhone msg
  else if ["help", "agent", "support", "שליח"].any
      (fun t => jsIncludes (jsToLower msg) t) then
    requestAgentConnectionPE st fromPhone msg
  else st

/-- Models `ProgramEngine.processMessage(fromPhone, message, contact)`: base programs,
then contact programs, then agent triggers; an exception from the missing
`processUserResponse` aborts the rest (it is caught at this level). -/
def processMessagePE (st : Sys) (fromPhone msg : String)
    (contact : Option Contact) : Sys :=
  let st1 := processBaseProgram st fromPhone msg contact
  match contact with
  | none => checkAgentTriggers st1 fromPhone msg
  | some c =>
    match processContactPrograms st1 c.id with
    | (st2, true) => st2
    | (st2, false) => checkAgentTriggers st2 fromPhone msg

/-- The `INSERT ... ON DUPLICATE KEY UPDATE` on `program_assignments` for a
contact target (the table has no unique key on the pair, so this is a plain
insert). -/
def withContactAssignment (st : Sys) (pid c : Nat) : Sys :=
  { st with programAssignments := st.programAssignments ++ [(pid, some c, none)] }

/-- Like `withContactAssignment`, for a group target. -/
def withGroupAssignment (st : Sys) (pid g : Nat) : Sys :=
  { st with programAssignments := st.programAssignments ++ [(pid, none, some g)] }

/-- Models `SELECT contact_id FROM contact_groups WHERE group_id = ?`. -/
def groupMemberIds (st : Sys) (g : Nat) : List Nat :=
  (st.contactGroups.filter (fun cg => cg.groupId == g)).map (·.contactId)

/-- The per-contact half of `ProgramEngine.assignProgram`: upsert the
assignment, then unconditionally `createProgramState`; an insert error aborts
the loop (the enclosing try/catch rethrows), keeping earlier inserts. -/
def assignContactsLoop (st : Sys) (pid : Nat) : List Nat → Sys × Bool
  | [] => (st, false)
  | c :: rest =>
    match createProgramState (withContactAssignment st pid c) pid (some c) with
    | .ok (st2, _) => assignContactsLoop st2 pid rest
    | .error _ => (withContactAssignment st pid c, true)

/-- The member fan-out of one group in `assignProgram`. -/
def assignGroupMembersLoop (st : Sys) (pid : Nat) : List Nat → Sys × Bool
  | [] => (st, false)
  | m :: rest =>
    match createProgramState st pid (some m) with
    | .ok (st2, _) => assignGroupMembersLoop st2 pid rest
    | .error _ => (st, true)

/-- The per-group half of `assignProgram`. -/
def assignGroupsLoop (st : Sys) (pid : Nat) : List Nat → Sys × Bool
  | [] => (st, false)
  | g :: rest =>
    match assignGroupMembersLoop (withGroupAssignment st pid g) pid
        (groupMemberIds (withGroupAssignment st pid g) g) with
    | (st2, true) => (st2, true)
    | (st2, false) => assignGroupsLoop st2 pid rest

/-- Models `ProgramEngine.assignProgram(programId, contactIds, groupIds)`; the Boolean
records whether the rethrown exception fired. -/
def assignProgram (st : Sys) (pid : Nat) (contactIds groupIds : List Nat) :
    Sys × Bool :=
  match assignContactsLoop st pid contactIds with
  | (st1, true) => (st1, true)
  | (st1, false) => assignGroupsLoop st1 pid groupIds

/-! ## Agent system (`server/systems/agentSystem.js`) -/

/-- The `for (const [sessionKey, session] of this.activeSessions)` scan of
`getActiveSessionByUser`. -/
def getActiveSessionByUser (st : Sys) (userPhone : String) :
    Option (String × SessionData) :=
  st.activeSessions.find? (fun e => e.2.userPhone == userPhone)

/-- Models `AgentSystem.getActiveSessionByAgent`. -/
def getActiveSessionByAgent (st : Sys) (agentPhone : String) :
    Option (String × SessionData) :=
  st.activeSessions.find? (fun e => e.2.agentPhone == agentPhone)

/-- Models `AgentSystem.findPendingConnectionForAgent`: the oldest pending request by
`requestTime` (strict comparison, so the first-inserted wins ties). -/
def findPendingConnectionForAgent (st : Sys) : Option PendingConn :=
  st.pendingConnections.foldl
    (fun acc p =>
      match acc with
      | none => some p.2
      | some best => if p.2.requestTime < best.requestTime then some p.2 else acc)
    none

/-- Models `AgentSystem.clearSessionTimeout`. -/
def clearSessionTimeout (st : Sys) (key : String) : Sys :=
  { st with sessionTimeouts := st.sessionTimeouts.filter (· != key) }

/-- Models `AgentSystem.startSessionTimeout` (the 30-minute timer object itself is
external; only which keys have a timer is modelled). -/
def startSessionTimeout (st : Sys) (key : String) : Sys :=
  { st with sessionTimeouts := st.sessionTimeouts ++ [key] }

/-- Models `AgentSystem.resetSessionTimeout`. -/
def resetSessionTimeout (st : Sys) (key : String) : Sys :=
  startSessionTimeout (clearSessionTimeout st key) key

/-- Models `AgentSystem.endChatSession(sessionKey, reason)`: a no-op when the key is
not in the in-memory map; otherwise update the `chat_sessions` row, notify both
parties, and drop the in-memory session and its timeout. -/
def endChatSession (st : Sys) (sessionKey reason : String) : Sys :=
  match lookupAssoc st.activeSessions sessionKey with
  | none => st
  | some session =>
    let st1 := { st with dbSessions := st.dbSessions.map (fun r =>
      if r.id == session.sessionId then
        { r with status := reason, endedAt := some st.now }
      else r) }
    let st2 := sendSys st1 session.userPhone "השיחה עם הסוכן הסתיימה. תודה!" "system"
    let st3 := sendSys st2 session.agentPhone
      ("השיחה עם " ++ session.userPhone ++ " הסתיימה.") "system"
    { st3 with activeSessions := eraseAssoc st3.activeSessions sessionKey,
               sessionTimeouts := st3.sessionTimeouts.filter (· != sessionKey) }

/-- Models `AgentSystem.forwardAgentMessage`. -/
def forwardAgentMessage (st : Sys) (key : String) (session : SessionData)
    (message : String) : Sys :=
  let formatted := "סוכן: " ++ message
  let st1 := sendSys st session.userPhone formatted "chat"
  let st2 := { st1 with messagesLog := st1.messagesLog ++
    [⟨"outbound", session.agentPhone, session.userPhone, formatted, "chat"⟩] }
  resetSessionTimeout st2 key

/-- Models `AgentSystem.forwardUserMessage(userPhone, message, contact)`: forwards to
the agent side of the user's active session, if any, and reports whether it
claimed the message. -/
def forwardUserMessage (st : Sys) (userPhone message : String)
    (contact : Option Contact) : Sys × Bool :=
  match getActiveSessionByUser st userPhone with
  | none => (st, false)
  | some (key, session) =>
    let userName := match contact with | some c => c.name | none => userPhone
    let formatted := userName ++ ": " ++ message
    let st1 := sendSys st session.agentPhone formatted "chat"
    let st2 := { st1 with messagesLog := st1.messagesLog ++
      [⟨"inbound", userPhone, session.agentPhone, message, "chat"⟩] }
    (resetSessionTimeout st2 key, true)

/-- Models `AgentSystem.handleAcceptCommand(agentPhone)`.  A pending request without a
contact id makes the `chat_sessions` insert violate `contact_id NOT NULL`,
which lands in the function's catch branch. -/
def handleAcceptCommand (st : Sys) (agentPhone : String) : Sys :=
  match st.agents.find? (fun a => a.phone == agentPhone && a.isActive) with
  | none => sendSys st agentPhone "אתה לא רשום כסוכן במערכת." "system"
  | some agent =>
    if agent.maxConcurrentChats ≤ activeChatCount st agent.id then
      sendSys st agentPhone "אתה כבר מנהל את מספר השיחות המקסימלי." "system"
    else
      match findPendingConnectionForAgent st with
      | none => sendSys st agentPhone "אין בקשות חיבור ממתינות." "system"
      | some pendingRequest =>
        match pendingRequest.contactId with
        | none => sendSys st agentPhone "שגיאה ביצירת חיבור. אנא נסה שוב." "system"
        | some cid =>
          let sessionKey := "session-" ++ toString st.keyCounter
          let sessionId := st.nextSessionId
          let st1 := { st with
            dbSessions := st.dbSessions ++
              [⟨sessionId, some cid, agent.id, sessionKey, "active", none⟩],
            nextSessionId := sessionId + 1,
            keyCounter := st.keyCounter + 1,
            activeSessions := st.activeSessions ++
              [(sessionKey,
                ⟨sessionId, some cid, agent.id, pendingRequest.userPhone, agentPhone⟩)],
            pendingConnections :=
              eraseAssoc st.pendingConnections pendingRequest.userPhone,
            sessionTimeouts := st.sessionTimeouts ++ [sessionKey] }
          let st2 := sendSys st1 agentPhone
            ("שיחה התחילה עם " ++ pendingRequest.userPhone ++
              ". שלח \"END\" לסיים את השיחה.") "system"
          sendSys st2 pendingRequest.userPhone
            "התחברת לסוכן. כעת אתה יכול לשלוח הודעות ישירות." "system"

/-- Models `AgentSystem.handleEndCommand(agentPhone)`. -/
def handleEndCommand (st : Sys) (agentPhone : String) : Sys :=
  match getActiveSessionByAgent st agentPhone with
  | none => sendSys st agentPhone "אין לך שיחה פעילה כרגע." "system"
  | some (key, _) => endChatSession st key "ended_by_agent"

/-- Models `AgentSystem.processAgentMessage(agentPhone, message, contact)`: `ACCEPT`,
`END`, then chat forwarding for a sender who is the agent side of an active
session; otherwise not agent-related (`false`). -/
def processAgentMessage (st : Sys) (agentPhone message : String)
    (_contact : Option Contact) : Sys × Bool :=
  let trimmedMessage := jsToUpper (jsTrim message)
  if trimmedMessage == "ACCEPT" then (handleAcceptCommand st agentPhone, true)
  else if trimmedMessage == "END" then (handleEndCommand st agentPhone, true)
  else
    match getActiveSessionByAgent st agentPhone with
    | some (key, session) => (forwardAgentMessage st key session message, true)
    | none => (st, false)

/-- The `for (const session of activeSessions)` loop of
`updateAgentAvailability`: end each listed session with reason
`agent_offline`. -/
def endSessionList (st : Sys) : List String → Sys
  | [] => st
  | k :: rest => endSessionList (endChatSession st k "agent_offline") rest

/-- Models `AgentSystem.updateAgentAvailability(agentId, isAvailable)`: persist the
flag; when going unavailable, end every `chat_sessions` row of the agent that
is `active` (snapshot taken before the loop, as the source's SELECT does). -/
def updateAgentAvailability (st : Sys) (agentId : Nat) (isAvailable : Bool) : Sys :=
  let st1 := { st with agents := st.agents.map (fun a =>
    if a.id == agentId then { a with isAvailable := isAvailable } else a) }
  if isAvailable then st1
  else
    endSessionList st1
      ((st1.dbSessions.filter (fun s =>
        s.agentId == agentId && s.status == "active")).map (·.sessionKey))

/-! ## Inbound entry point (`server/index.js`, `CompleteSMSServerRailway`) -/

/-- The server's virtual phone number (`config.virtualPhone` default). -/
def virtualPhone : String := "+1234567890"

/-- Models `findOrCreateContact(phone)`: return the existing contact or insert one
named `Contact <phone>` and link it to the first default group. -/
def findOrCreateContact (st : Sys) (phone : String) : Sys × Option Contact :=
  match st.contacts.find? (fun c => c.phone == phone) with
  | some c => (st, some c)
  | none =>
    let c : Contact := ⟨st.nextContactId, "Contact " ++ phone, phone, true⟩
    let st1 := { st with contacts := st.contacts ++ [c],
                         nextContactId := st.nextContactId + 1 }
    let st2 :=
      match st1.groups.find? (·.isDefault) with
      | some g => { st1 with contactGroups := st1.contactGroups ++ [⟨c.id, g.id⟩] }
      | none => st1
    (st2, some c)

/-- The `INSERT INTO messages` of `processIncomingMessage`. -/
def logInboundMessage (st : Sys) (fromPhone content : String) : Sys :=
  { st with messagesLog := st.messagesLog ++
    [⟨"inbound", fromPhone, virtualPhone, content, "sms"⟩] }

/-- Which branch of `processIncomingMessage` consumed the message; the three
constructors correspond to the source's three logger/dispatch branches
("handled by agent system", "forwarded to active chat", program engine). -/
inductive Handler where
  | agentSystem
  | chatForward
  | programEngine
deriving Repr, DecidableEq

/-- Models `CompleteSMSServerRailway.processIncomingMessage`: find/create the contact,
store the inbound message, then run the dispatch chain of the source —
`processAgentMessage` first, then `forwardUserMessage`, then
`programEngine.processMessage`; the first claimer ends the chain. -/
def processIncomingMessage (st : Sys) (fromPhone content : String) :
    Sys × Handler :=
  let fc := findOrCreateContact st fromPhone
  let st2 := logInboundMessage fc.1 fromPhone content
  let am := processAgentMessage st2 fromPhone content fc.2
  if am.2 then (am.1, .agentSystem)
  else
    let fw := forwardUserMessage am.1 fromPhone content fc.2
    if fw.2 then (fw.1, .chatForward)
    else (processMessagePE fw.1 fromPhone content fc.2, .programEngine)

/-- Modelled from the spec: the chain order the specification describes for an
inbound message — "AgentBroker (active-session forward) → AgentBroker (agent
command interpretation) → ProgramEngine", first claimer stops the chain. -/
def processIncomingMessageSpecOrder (st : Sys) (fromPhone content : String) :
    Sys × Handler :=
  let fc := findOrCreateContact st fromPhone
  let st2 := logInboundMessage fc.1 fromPhone content
  let fw := forwardUserMessage st2 fromPhone content fc.2
  if fw.2 then (fw.1, .chatForward)
  else
    let am := processAgentMessage fw.1 fromPhone content fc.2
    if am.2 then (am.1, .agentSystem)
    else (processMessagePE am.1 fromPhone content fc.2, .programEngine)

/-! ## Broadcast system (`server/systems/broadcastSystem.js`) -/

/-- JS `Map.set` on a string-keyed association list: update in place if the
key exists, else append. -/
def mapSet {α : Type} (m : List (String × α)) (k : String) (v : α) :
    List (String × α) :=
  if m.any (fun p => p.1 == k) then
    m.map (fun p => if p.1 == k then (k, v) else p)
  else m ++ [(k, v)]

/-- One resolved broadcast recipient (`{contact_id, group_id, phone}`). -/
structure Recipient where
  contact_id : Nat
  group_id : Option Nat
  phone : String
deriving Repr, DecidableEq

/-- SQL `DISTINCT`: keep the first occurrence of each row. -/
def dedupKeepFirstAux {α : Type} [DecidableEq α] : List α → List α → List α
  | _, [] => []
  | seen, a :: rest =>
    if a ∈ seen then dedupKeepFirstAux seen rest
    else a :: dedupKeepFirstAux (a :: seen) rest

/-- See `dedupKeepFirstAux`. -/
def dedupKeepFirst {α : Type} [DecidableEq α] (l : List α) : List α :=
  dedupKeepFirstAux [] l

/-- The group query of `calculateRecipients`: `SELECT DISTINCT c.id, c.phone,
cg.group_id FROM contacts JOIN contact_groups ... WHERE cg.group_id IN (...)
AND c.is_active = TRUE` (join order follows the `contact_groups` table). -/
def groupContactsQuery (st : Sys) (groupIds : List Nat) :
    List (Nat × String × Nat) :=
  dedupKeepFirst (st.contactGroups.filterMap (fun cg =>
    if groupIds.contains cg.groupId then
      match st.contacts.find? (fun c => c.id == cg.contactId) with
      | some c => if c.isActive then some (c.id, c.phone, cg.groupId) else none
      | none => none
    else none))

/-- The direct-contact query of `calculateRecipients`. -/
def specificContactsQuery (st : Sys) (contactIds : List Nat) :
    List (Nat × String) :=
  (st.contacts.filter (fun c => contactIds.contains c.id && c.isActive)).map
    (fun c => (c.id, c.phone))

/-- The first `forEach` of `calculateRecipients`: fill the phone-keyed `Map`
from the group contacts. -/
def groupRecipFold (st : Sys) (groupIds : List Nat) : List (String × Recipient) :=
  (groupContactsQuery st groupIds).foldl
    (fun m t => mapSet m t.2.1 ⟨t.1, some t.2.2, t.2.1⟩) []

/-- The second `forEach` of `calculateRecipients`: overwrite/add the direct
contacts on top of the group entries. -/
def recipMap (st : Sys) (groupIds contactIds : List Nat) :
    List (String × Recipient) :=
  (specificContactsQuery st contactIds).foldl
    (fun m c => mapSet m c.2 ⟨c.1, none, c.2⟩) (groupRecipFold st groupIds)

/-- Models `BroadcastSystem.calculateRecipients(groupIds, contactIds)`: a phone-keyed
`Map` is filled from the group contacts and then the direct contacts, so later
entries with the same phone overwrite earlier ones, and
`Array.from(recipients.values())` is returned. -/
def calculateRecipients (st : Sys) (groupIds contactIds : List Nat) :
    List Recipient :=
  (recipMap st groupIds contactIds).map (·.2)

/-- Models `BroadcastSystem.startBroadcast`: mark the broadcast `sending` and enqueue
it (the queue is drained by the cooperative scheduler). -/
def startBroadcast (st : Sys) (broadcastId : Nat) : Sys :=
  let st1 := { st with broadcasts := st.broadcasts.map (fun (b : BroadcastRow) =>
    if b.id == broadcastId then { b with status := "sending" } else b) }
  { st1 with sendingQueue := st1.sendingQueue ++ [broadcastId] }

/-- Models `BroadcastSystem.createBroadcast(name, messageContent, targetGroups,
targetContacts, scheduledAt, createdBy)`.  The audience-size checks precede
every insert, so rejection leaves the state untouched. -/
def createBroadcast (st : Sys) (name content : String)
    (targetGroups targetContacts : List Nat) (scheduledAt : Option Nat)
    (createdBy : String) : Sys × Except String (Nat × Nat × String) :=
  let recipients := calculateRecipients st targetGroups targetContacts
  if recipients.length == 0 then
    (st, .error "No recipients found for broadcast")
  else if 1000 < recipients.length then
    (st, .error "Broadcast exceeds maximum recipient limit (1000)")
  else
    let broadcastId := st.nextBroadcastId
    let status0 := if scheduledAt.isSome then "scheduled" else "draft"
    let st1 := { st with
      broadcasts := st.broadcasts ++
        [⟨broadcastId, name, content, recipients.length, 0, 0, status0,
          scheduledAt, none, none, createdBy⟩],
      nextBroadcastId := broadcastId + 1 }
    let st2 := recipients.foldl
      (fun acc r => { acc with
        broadcastRecipients := acc.broadcastRecipients ++
          [⟨acc.nextRecipientId, broadcastId, some r.contact_id, r.group_id,
            r.phone, "pending", none, none⟩],
        nextRecipientId := acc.nextRecipientId + 1 }) st1
    let st3 := if scheduledAt.isSome then st2 else startBroadcast st2 broadcastId
    (st3, .ok (broadcastId, recipients.length,
      if scheduledAt.isSome then "scheduled" else "sending"))

/-- Models `BroadcastSystem.markRecipientSent`. -/
def markRecipientSent (st : Sys) (recipientId : Nat) : Sys :=
  { st with broadcastRecipients := st.broadcastRecipients.map (fun r =>
    if r.id == recipientId then
      { r with status := "sent", sentAt := some st.now }
    else r) }

/-- Models `BroadcastSystem.markRecipientFailed`. -/
def markRecipientFailed (st : Sys) (recipientId : Nat) (err : String) : Sys :=
  { st with broadcastRecipients := st.broadcastRecipients.map (fun r =>
    if r.id == recipientId then
      { r with status := "failed", errorMessage := some err }
    else r) }

/-- The `for (const recipient of recipients)` loop of
`BroadcastSystem.processBroadcast`, carrying the local `sentCount` /
`failedCount`.  A global rate-limit denial sleeps 60 s and `continue`s; a
phone-limit denial marks the recipient failed with `Rate limit exceeded`; a
successful send updates the limiter counters and paces 200 ms. -/
def processBroadcastLoop (content : String) :
    Sys → Nat → Nat → List BroadcastRecipRow → Sys × Nat × Nat
  | st, sentCount, failedCount, [] => (st, sentCount, failedCount)
  | st, sentCount, failedCount, recipient :: rest =>
    match checkGlobalRateLimit st.rateCfg st.rateDb st.now with
    | .denied _ _ _ _ =>
      processBroadcastLoop content { st with now := st.now + 60000 }
        sentCount failedCount rest
    | .allowed =>
      match checkPhoneRateLimit st.rateCfg st.rateDb recipient.phone st.now with
      | .denied _ _ _ _ _ =>
        processBroadcastLoop content
          (markRecipientFailed st recipient.id "Rate limit exceeded")
          sentCount (failedCount + 1) rest
      | .allowed =>
        let st1 := sendSys st recipient.phone content "broadcast"
        let st2 := { st1 with rateDb := updateRateLimit st1.rateDb recipient.phone st1.now }
        let st3 := markRecipientSent st2 recipient.id
        processBroadcastLoop content { st3 with now := st3.now + 200 }
          (sentCount + 1) failedCount rest

/-- Models `BroadcastSystem.processBroadcast(broadcastId)`: snapshot the pending
recipients in id order, run the loop, then accumulate the counters onto the
broadcast and mark it `sent`. -/
def processBroadcast (st : Sys) (broadcastId : Nat) : Sys :=
  match st.broadcasts.find? (fun b => b.id == broadcastId) with
  | none => st
  | some b =>
    let recipients := st.broadcastRecipients.filter (fun r =>
      r.broadcastId == broadcastId && r.status == "pending")
    match processBroadcastLoop b.content st 0 0 recipients with
    | (st1, sentCount, failedCount) =>
      let st2 := { st1 with broadcasts := st1.broadcasts.map (fun (bb : BroadcastRow) =>
        if bb.id == broadcastId then
          { bb with sentCount := bb.sentCount + sentCount,
                    failedCount := bb.failedCount + failedCount }
        else bb) }
      { st2 with broadcasts := st2.broadcasts.map (fun (bb : BroadcastRow) =>
        if bb.id == broadcastId then
          { bb with status := "sent", sentAt := some st2.now }
        else bb) }

/-! ## Theorems -/

/-- C10: for a sessionKey absent from the in-memory active-session map,
`endChatSession` is a no-op: no session status update is written to the store,
no notification is sent to either party, and the active-session and timeout
maps are unchanged (the whole state is unchanged). -/
theorem endChatSession_noop (st : Sys) (sessionKey reason : String)
    (h : lookupAssoc st.activeSessions sessionKey = none) :
    endChatSession st sessionKey reason = st := by
  unfold endChatSession
  rw [h]

theorem endChatSession_noop_witness :
    lookupAssoc (Sys.empty).activeSessions "missing" = none ∧
    endChatSession Sys.empty "missing" "ended_by_agent" = Sys.empty :=
  ⟨rfl, endChatSession_noop Sys.empty "missing" "ended_by_agent" rfl⟩

/-- C6: the ordered condition list is evaluated against the user's latest
message and the first matching condition determines the next step (the loop is
the first-satisfying search `List.find?`); in particular a step with
conditions `[contains "help" → 1, contains "agent" → 2]` and no default, on
input `"I need help please"`, jumps to step 1. -/
theorem executeConditionStep_first_match :
    (∀ (conds : List Condition) (msg : String),
      findMatchedCondition conds msg =
        conds.find? (fun c => evaluateCondition c.test msg))
    ∧ ∀ (st : Sys) (ps : PSRow),
        executeConditionStep st ps
          [⟨.contains "help", 1⟩, ⟨.contains "agent", 2⟩] none "I need help please"
          = jumpToStep st ps 1 := by
  constructor
  · intro conds msg
    induction conds with
    | nil => rfl
    | cons c rest ih =>
      by_cases h : evaluateCondition c.test msg
      · simp [findMatchedCondition, List.find?, h]
      · simp [findMatchedCondition, List.find?, h, ih]
  · intro st ps
    have h1 : findMatchedCondition
        [⟨.contains "help", 1⟩, ⟨.contains "agent", 2⟩] "I need help please"
        = some ⟨.contains "help", 1⟩ := by decide
    simp [executeConditionStep, h1]

/-- The `input`-step fields of C5's example: validator chain `[numeric]` with a
configured error message and the default variable name. -/
def c5InputStep : InputStepData :=
  ⟨some [.numeric], some "Please enter a number", none⟩

/-- C5 (documenting the code bug): for an input step with a `numeric`
validator and a configured error message, the reply `"abc"` makes the step
raise `ReferenceError: phone is not defined` — no error message is sent and
`current_step` is unchanged — while the reply `"42"` stores
`step_data["user_input"] = "42"` and advances `current_step`. -/
theorem executeInputStep_numeric_cases (st : Sys) (ps : PSRow) :
    executeInputStep st ps c5InputStep (some "abc") = .referenceError "phone"
    ∧ executeInputStep st ps c5InputStep (some "42") =
        .ok (advanceToNextStep
          (setPSStepData st ps.id (jsObjectSet ps.stepData "user_input" "42")) ps) := by
  constructor
  · have hv : validateInput "abc" [.numeric] = false := by decide
    simp [executeInputStep, c5InputStep, hv]
  · have hv : validateInput "42" [.numeric] = true := by decide
    simp [executeInputStep, c5InputStep, hv, Option.getD]

/-- C8: `createBroadcast` with a resolved recipient count of 0 or above the
1000 cap rejects with an error, and the state — in particular the `broadcasts`
and `broadcast_recipients` tables — is unchanged. -/
theorem createBroadcast_rejects (st : Sys) (name content : String)
    (targetGroups targetContacts : List Nat) (scheduledAt : Option Nat)
    (createdBy : String)
    (h : (calculateRecipients st targetGroups targetContacts).length = 0 ∨
         1000 < (calculateRecipients st targetGroups targetContacts).length) :
    (createBroadcast st name content targetGroups targetContacts scheduledAt createdBy).1 = st
    ∧ ∃ e, (createBroadcast st name content targetGroups targetContacts
        scheduledAt createdBy).2 = .error e := by
  unfold createBroadcast
  rcases h with h | h
  · simp [h]
  · have h0 : ((calculateRecipients st targetGroups targetContacts).length == 0) = false := by
      simp only [beq_eq_false_iff_ne, ne_eq]
      omega
    simp [h0, h]

theorem createBroadcast_rejects_witness :
    (createBroadcast Sys.empty "b" "hello" [] [] none "admin").1 = Sys.empty
    ∧ ∃ e, (createBroadcast Sys.empty "b" "hello" [] [] none "admin").2 = .error e :=
  createBroadcast_rejects Sys.empty "b" "hello" [] [] none "admin" (Or.inl (by decide))

/-! ### C7: recipient deduplication by phone -/

/-- Keys of an association-list `Map`. -/
def mapKeys {α : Type} (m : List (String × α)) : List String := m.map (·.1)

theorem mapKeys_mapSet_of_mem {α : Type} (m : List (String × α)) (k : String)
    (v : α) (h : m.any (fun p => p.1 == k) = true) :
    mapKeys (mapSet m k v) = mapKeys m := by
  simp only [mapSet, h, if_true, mapKeys, List.map_map]
  apply List.map_congr_left
  intro p _
  by_cases hk : p.1 = k <;> simp [Function.comp, hk]

theorem mapSet_of_not_mem {α : Type} (m : List (String × α)) (k : String)
    (v : α) (h : m.any (fun p => p.1 == k) = false) :
    mapSet m k v = m ++ [(k, v)] := by
  simp [mapSet, h]

theorem nodup_mapKeys_mapSet {α : Type} (m : List (String × α)) (k : String)
    (v : α) (h : (mapKeys m).Nodup) : (mapKeys (mapSet m k v)).Nodup := by
  cases hm : m.any (fun p => p.1 == k) with
  | true => rw [mapKeys_mapSet_of_mem m k v hm]; exact h
  | false =>
    rw [mapSet_of_not_mem m k v hm]
    have hk : k ∉ mapKeys m := by
      intro hmem
      rcases List.mem_map.mp hmem with ⟨p, hp, hpk⟩
      have := List.any_eq_false.mp hm p hp
      simp [hpk] at this
    have hkeys : mapKeys (m ++ [(k, v)]) = mapKeys m ++ [k] := by
      simp [mapKeys]
    rw [hkeys]
    exact List.Nodup.append h (List.nodup_singleton k)
      (fun a ha hb => hk ((List.mem_singleton.mp hb) ▸ ha))

theorem mem_mapKeys_mapSet_self {α : Type} (m : List (String × α)) (k : String)
    (v : α) : k ∈ mapKeys (mapSet m k v) := by
  cases hm : m.any (fun p => p.1 == k) with
  | true =>
    rcases List.any_eq_true.mp hm with ⟨p, hp, hpk⟩
    have hpk' : p.1 = k := by simpa using hpk
    rw [mapKeys_mapSet_of_mem m k v hm, ← hpk']
    exact List.mem_map.mpr ⟨p, hp, rfl⟩
  | false =>
    rw [mapSet_of_not_mem m k v hm]
    simp [mapKeys]

theorem mem_mapKeys_mapSet_of_mem {α : Type} (m : List (String × α))
    (k k' : String) (v : α) (h : k' ∈ mapKeys m) :
    k' ∈ mapKeys (mapSet m k v) := by
  cases hm : m.any (fun p => p.1 == k) with
  | true => rw [mapKeys_mapSet_of_mem m k v hm]; exact h
  | false =>
    rw [mapSet_of_not_mem m k v hm]
    simp only [mapKeys, List.map_append, List.mem_append]
    exact Or.inl h

/-- Every stored recipient's `phone` field equals its map key. -/
def PhonesMatchKeys (m : List (String × Recipient)) : Prop :=
  ∀ p ∈ m, p.2.phone = p.1

theorem phonesMatch_mapSet (m : List (String × Recipient)) (k : String)
    (v : Recipient) (h : PhonesMatchKeys m) (hv : v.phone = k) :
    PhonesMatchKeys (mapSet m k v) := by
  intro p hp
  unfold mapSet at hp
  split at hp
  · rcases List.mem_map.mp hp with ⟨q, hq, hqe⟩
    by_cases hqk : q.1 = k
    · simp [hqk] at hqe
      rw [← hqe]
      exact hv
    · simp [hqk] at hqe
      rw [← hqe]
      exact h q hq
  · rcases List.mem_append.mp hp with hp | hp
    · exact h p hp
    · simp at hp
      rw [hp]
      exact hv

theorem foldl_mapSet_nodup {β : Type} (key : β → String) (val : β → Recipient)
    (l : List β) :
    ∀ m, (mapKeys m).Nodup →
      (mapKeys (l.foldl (fun acc b => mapSet acc (key b) (val b)) m)).Nodup := by
  induction l with
  | nil => intro m h; exact h
  | cons b rest ih =>
    intro m h
    exact ih (mapSet m (key b) (val b)) (nodup_mapKeys_mapSet m (key b) (val b) h)

theorem foldl_mapSet_phones {β : Type} (key : β → String) (val : β → Recipient)
    (hkv : ∀ b, (val b).phone = key b) (l : List β) :
    ∀ m, PhonesMatchKeys m →
      PhonesMatchKeys (l.foldl (fun acc b => mapSet acc (key b) (val b)) m) := by
  induction l with
  | nil => intro m h; exact h
  | cons b rest ih =>
    intro m h
    exact ih (mapSet m (key b) (val b))
      (phonesMatch_mapSet m (key b) (val b) h (hkv b))

theorem foldl_mapSet_mem_keys {β : Type} (key : β → String) (val : β → Recipient)
    (l : List β) :
    ∀ m k, k ∈ mapKeys m →
      k ∈ mapKeys (l.foldl (fun acc b => mapSet acc (key b) (val b)) m) := by
  induction l with
  | nil => intro m k h; exact h
  | cons b rest ih =>
    intro m k h
    exact ih (mapSet m (key b) (val b)) k
      (mem_mapKeys_mapSet_of_mem m (key b) k (val b) h)

theorem foldl_mapSet_mem_of_elem {β : Type} (key : β → String)
    (val : β → Recipient) (l : List β) (b : β) (hb : b ∈ l) :
    ∀ m, key b ∈ mapKeys (l.foldl (fun acc b => mapSet acc (key b) (val b)) m) := by
  induction l with
  | nil => cases hb
  | cons c rest ih =>
    intro m
    rcases List.mem_cons.mp hb with hb | hb
    · subst hb
      exact foldl_mapSet_mem_keys key val rest (mapSet m (key b) (val b)) (key b)
        (mem_mapKeys_mapSet_self m (key b) (val b))
    · exact ih hb (mapSet m (key c) (val c))

theorem mem_dedupKeepFirstAux {α : Type} [DecidableEq α] (a : α) :
    ∀ (l seen : List α), a ∈ dedupKeepFirstAux seen l ↔ a ∈ l ∧ a ∉ seen := by
  intro l
  induction l with
  | nil => intro seen; simp [dedupKeepFirstAux]
  | cons b rest ih =>
    intro seen
    by_cases hb : b ∈ seen
    · rw [show dedupKeepFirstAux seen (b :: rest) = dedupKeepFirstAux seen rest by
        simp [dedupKeepFirstAux, hb], ih]
      constructor
      · rintro ⟨h1, h2⟩
        exact ⟨List.mem_cons_of_mem b h1, h2⟩
      · rintro ⟨h1, h2⟩
        rcases List.mem_cons.mp h1 with rfl | h1
        · exact absurd hb h2
        · exact ⟨h1, h2⟩
    · rw [show dedupKeepFirstAux seen (b :: rest)
          = b :: dedupKeepFirstAux (b :: seen) rest by simp [dedupKeepFirstAux, hb]]
      constructor
      · intro h
        rcases List.mem_cons.mp h with rfl | h
        · exact ⟨List.mem_cons_self a rest, hb⟩
        · rcases (ih (b :: seen)).mp h with ⟨h1, h2⟩
          exact ⟨List.mem_cons_of_mem b h1,
            fun hs => h2 (List.mem_cons_of_mem b hs)⟩
      · rintro ⟨h1, h2⟩
        rcases List.mem_cons.mp h1 with rfl | h1
        · exact List.mem_cons_self a _
        · by_cases hab : a = b
          · subst hab
            exact List.mem_cons_self a _
          · refine List.mem_cons_of_mem b ((ih (b :: seen)).mpr ⟨h1, ?_⟩)
            intro hs
            rcases List.mem_cons.mp hs with h | h
            · exact hab h
            · exact h2 h

theorem mem_dedupKeepFirst {α : Type} [DecidableEq α] (a : α) (l : List α) :
    a ∈ dedupKeepFirst l ↔ a ∈ l := by
  simp [dedupKeepFirst, mem_dedupKeepFirstAux]

/-- With unique contact ids (the table's primary key), the join's
`find?` returns the member contact itself. -/
theorem find?_contact_of_nodup (contacts : List Contact)
    (hids : (contacts.map (·.id)).Nodup) (c : Contact) (hc : c ∈ contacts) :
    contacts.find? (fun x => x.id == c.id) = some c := by
  induction contacts with
  | nil => cases hc
  | cons x rest ih =>
    simp only [List.map_cons, List.nodup_cons] at hids
    rcases List.mem_cons.mp hc with hc | hc
    · subst hc
      simp [List.find?]
    · by_cases hx : x.id = c.id
      · exfalso
        exact hids.1 (hx ▸ List.mem_map.mpr ⟨c, hc, rfl⟩)
      · have hxb : (x.id == c.id) = false := by simpa using hx
        simp only [List.find?, hxb]
        exact ih hids.2 hc

/-- C7: `calculateRecipients` resolves the union of active contacts in the
given groups and the given contact ids, deduplicated by phone: no two resolved
recipients share a phone, and every active contact reachable through a target
group or a direct contact id appears (exactly once, by the no-duplicates
part). -/
theorem calculateRecipients_dedup (st : Sys) (groupIds contactIds : List Nat)
    (hids : (st.contacts.map (·.id)).Nodup) :
    ((calculateRecipients st groupIds contactIds).map (·.phone)).Nodup
    ∧ ∀ c ∈ st.contacts, c.isActive = true →
        ((∃ cg ∈ st.contactGroups, cg.contactId = c.id ∧ cg.groupId ∈ groupIds)
          ∨ c.id ∈ contactIds) →
        ∃ r ∈ calculateRecipients st groupIds contactIds, r.phone = c.phone := by
  have hm1nodup : (mapKeys (groupRecipFold st groupIds)).Nodup := by
    unfold groupRecipFold
    exact foldl_mapSet_nodup (fun t : Nat × String × Nat => t.2.1)
      (fun t : Nat × String × Nat => ⟨t.1, some t.2.2, t.2.1⟩)
      (groupContactsQuery st groupIds) [] (by simp [mapKeys])
  have hm2nodup : (mapKeys (recipMap st groupIds contactIds)).Nodup := by
    unfold recipMap
    exact foldl_mapSet_nodup (fun t : Nat × String => t.2)
      (fun t : Nat × String => ⟨t.1, none, t.2⟩)
      (specificContactsQuery st contactIds) (groupRecipFold st groupIds) hm1nodup
  have hm1ph : PhonesMatchKeys (groupRecipFold st groupIds) := by
    unfold groupRecipFold
    exact foldl_mapSet_phones (fun t : Nat × String × Nat => t.2.1)
      (fun t : Nat × String × Nat => ⟨t.1, some t.2.2, t.2.1⟩) (fun _ => rfl)
      (groupContactsQuery st groupIds) [] (by intro p hp; cases hp)
  have hm2ph : PhonesMatchKeys (recipMap st groupIds contactIds) := by
    unfold recipMap
    exact foldl_mapSet_phones (fun t : Nat × String => t.2)
      (fun t : Nat × String => ⟨t.1, none, t.2⟩) (fun _ => rfl)
      (specificContactsQuery st contactIds) (groupRecipFold st groupIds) hm1ph
  constructor
  · rw [calculateRecipients, List.map_map]
    have hcg2 : ∀ p ∈ recipMap st groupIds contactIds,
        ((·.phone) ∘ (fun q : String × Recipient => q.2)) p = p.1 :=
      fun p hp => hm2ph p hp
    rw [List.map_congr_left hcg2]
    exact hm2nodup
  · intro c hc hact hreach
    have hkey : c.phone ∈ mapKeys (recipMap st groupIds contactIds) := by
      rcases hreach with ⟨cg, hcg, hcgc, hcgg⟩ | hdirect
      · have ht : (c.id, c.phone, cg.groupId) ∈ groupContactsQuery st groupIds := by
          rw [groupContactsQuery, mem_dedupKeepFirst]
          apply List.mem_filterMap.mpr
          refine ⟨cg, hcg, ?_⟩
          have hgin : groupIds.contains cg.groupId = true := by
            simpa using hcgg
          rw [if_pos hgin, hcgc, find?_contact_of_nodup st.contacts hids c hc]
          simp [hact]
        have hk1 : c.phone ∈ mapKeys (groupRecipFold st groupIds) := by
          unfold groupRecipFold
          exact foldl_mapSet_mem_of_elem (fun t : Nat × String × Nat => t.2.1)
            (fun t : Nat × String × Nat => ⟨t.1, some t.2.2, t.2.1⟩)
            (groupContactsQuery st groupIds) (c.id, c.phone, cg.groupId) ht []
        unfold recipMap
        exact foldl_mapSet_mem_keys (fun t : Nat × String => t.2)
          (fun t : Nat × String => ⟨t.1, none, t.2⟩)
          (specificContactsQuery st contactIds) (groupRecipFold st groupIds)
          c.phone hk1
      · have hsp : (c.id, c.phone) ∈ specificContactsQuery st contactIds := by
          unfold specificContactsQuery
          apply List.mem_map.mpr
          refine ⟨c, List.mem_filter.mpr ⟨hc, ?_⟩, rfl⟩
          simp [hact]
          simpa using hdirect
        unfold recipMap
        exact foldl_mapSet_mem_of_elem (fun t : Nat × String => t.2)
          (fun t : Nat × String => ⟨t.1, none, t.2⟩)
          (specificContactsQuery st contactIds) (c.id, c.phone) hsp
          (groupRecipFold st groupIds)
    rcases List.mem_map.mp hkey with ⟨p, hp, hpk⟩
    refine ⟨p.2, List.mem_map.mpr ⟨p, hp, rfl⟩, ?_⟩
    rw [hm2ph p hp, hpk]

/-- Two active contacts, one in two target groups and also given directly. -/
def stC7 : Sys := { Sys.empty with
  contacts := [⟨1, "A", "+1", true⟩, ⟨2, "B", "+2", true⟩],
  contactGroups := [⟨1, 10⟩, ⟨1, 11⟩, ⟨2, 10⟩] }

theorem calculateRecipients_dedup_witness :
    ((calculateRecipients stC7 [10, 11] [1]).map (·.phone)).Nodup
    ∧ ∃ r ∈ calculateRecipients stC7 [10, 11] [1], r.phone = "+1" := by
  have h := calculateRecipients_dedup stC7 [10, 11] [1] (by decide)
  refine ⟨h.1, ?_⟩
  exact h.2 ⟨1, "A", "+1", true⟩ (by decide) rfl
    (Or.inl ⟨⟨1, 10⟩, by decide, rfl, by decide⟩)

/-! ### C4: uniqueness of `program_states` per (programId, contactId) -/

/-- The (programId, contactId) pairs of the `program_states` table. -/
def psPairs (l : List PSRow) : List (Nat × Nat) :=
  l.map (fun r => (r.programId, r.contactId))

/-- At most one `program_states` row per (programId, contactId) pair. -/
def PairUnique (st : Sys) : Prop := (psPairs st.programStates).Nodup

theorem psPairs_updatePS (st : Sys) (i : Nat) (f : PSRow → PSRow)
    (hf : ∀ r, (f r).programId = r.programId ∧ (f r).contactId = r.contactId) :
    psPairs (updatePS st i f).programStates = psPairs st.programStates := by
  simp only [updatePS, psPairs, List.map_map]
  apply List.map_congr_left
  intro r _
  simp only [Function.comp]
  split
  · rw [(hf r).1, (hf r).2]
  · rfl

theorem programStates_foldl_send {β : Type} (f : Sys → β → Sys)
    (hf : ∀ s b, (f s b).programStates = s.programStates) (l : List β) :
    ∀ st : Sys, (l.foldl f st).programStates = st.programStates := by
  induction l with
  | nil => intro st; rfl
  | cons b rest ih => intro st; rw [List.foldl_cons, ih, hf]

theorem programStates_requestAgentConnectionPE (st : Sys) (p m : String) :
    (requestAgentConnectionPE st p m).programStates = st.programStates := by
  by_cases hav : (availableAgentsPE st).isEmpty = true
  · simp only [requestAgentConnectionPE, hav, if_true]
    rfl
  · simp only [requestAgentConnectionPE]
    rw [if_neg hav]
    exact programStates_foldl_send
      (fun (acc : Sys) (a : AgentRow) => sendSys acc a.phone
        ("חיבור שליח חדש מ: " ++ p ++ "\nהודעה: " ++ m ++
          "\nהשב \"ACCEPT\" כדי לקבל את החיבור.") "agent_request")
      (fun _ _ => rfl) (availableAgentsPE st) st

theorem psPairs_advanceToNextStep (st : Sys) (ps : PSRow) :
    psPairs (advanceToNextStep st ps).programStates = psPairs st.programStates := by
  unfold advanceToNextStep
  rw [psPairs_updatePS]
  intro r
  exact ⟨rfl, rfl⟩

theorem psPairs_jumpToStep (st : Sys) (ps : PSRow) (sid : Nat) :
    psPairs (jumpToStep st ps sid).programStates = psPairs st.programStates := by
  unfold jumpToStep
  rw [psPairs_updatePS]
  intro r
  exact ⟨rfl, rfl⟩

theorem psPairs_setPSStepData (st : Sys) (i : Nat) (d : List (String × String)) :
    psPairs (setPSStepData st i d).programStates = psPairs st.programStates := by
  unfold setPSStepData
  rw [psPairs_updatePS]
  intro r
  exact ⟨rfl, rfl⟩

theorem psPairs_executeInputStep (st : Sys) (ps : PSRow) (d : InputStepData)
    (um : Option String) (st2 : Sys)
    (h : executeInputStep st ps d um = .ok st2) :
    psPairs st2.programStates = psPairs st.programStates := by
  have hadv : ∀ dd, psPairs (advanceToNextStep (setPSStepData st ps.id dd)
      ps).programStates = psPairs st.programStates := by
    intro dd
    rw [psPairs_advanceToNextStep, psPairs_setPSStepData]
  cases um with
  | none =>
    simp only [executeInputStep] at h
    cases h
    rfl
  | some m =>
    simp only [executeInputStep] at h
    by_cases hm : (m == "") = true
    · rw [if_pos hm] at h
      cases h
      rfl
    · rw [if_neg hm] at h
      cases hv : d.validators with
      | none =>
        simp only [hv] at h
        cases h
        exact hadv _
      | some vs =>
        simp only [hv] at h
        by_cases hval : validateInput m vs = true
        · rw [if_pos hval] at h
          cases h
          exact hadv _
        · rw [if_neg hval] at h
          cases he : d.error_message with
          | none => simp only [he] at h; cases h; rfl
          | some e => simp only [he] at h; cases h

theorem psPairs_executeStep (st : Sys) (ps : PSRow) (step : Step)
    (phone : String) (um : Option String) :
    psPairs (executeStep st ps step phone um).programStates
      = psPairs st.programStates := by
  cases step with
  | message content =>
    show psPairs (executeMessageStep st ps content phone).programStates = _
    simp only [executeMessageStep]
    rw [psPairs_advanceToNextStep]
    rfl
  | delay seconds =>
    show psPairs (executeDelayStep st ps seconds).programStates = _
    unfold executeDelayStep
    rw [psPairs_updatePS]
    intro r
    exact ⟨rfl, rfl⟩
  | condition conds dflt =>
    cases um with
    | none => rfl
    | some m =>
      show psPairs (executeConditionStep st ps conds dflt m).programStates = _
      unfold executeConditionStep
      cases findMatchedCondition conds m with
      | some c => exact psPairs_jumpToStep st ps c.next_step_id
      | none =>
        cases dflt with
        | some dfl => exact psPairs_jumpToStep st ps dfl
        | none => exact psPairs_advanceToNextStep st ps
  | input vs em vn =>
    show psPairs (match executeInputStep st ps ⟨vs, em, vn⟩ um with
      | .ok st2 => st2
      | .referenceError _ => st).programStates = _
    cases hr : executeInputStep st ps ⟨vs, em, vn⟩ um with
    | ok st2 => exact psPairs_executeInputStep st ps ⟨vs, em, vn⟩ um st2 hr
    | referenceError v => rfl
  | agent_connect m =>
    show psPairs (executeAgentConnectStep st ps m phone).programStates = _
    simp only [executeAgentConnectStep]
    rw [psPairs_updatePS]
    · rw [programStates_requestAgentConnectionPE]
    · intro r
      exact ⟨rfl, rfl⟩
  | unknown t => rfl

theorem psPairs_execProgramStep (pd : ProgramData) (phone : String)
    (um : Option String) (st : Sys) (ps : PSRow) :
    psPairs (execProgramStep pd phone um st ps).programStates
      = psPairs st.programStates := by
  unfold execProgramStep
  cases (pd.steps.get? ps.currentStep).orElse (fun _ => pd.steps.get? 0) with
  | none => rfl
  | some step => exact psPairs_executeStep st ps step phone um

theorem pair_not_mem_of_any_false (l : List PSRow) (pid c : Nat)
    (h : (l.any (fun r => r.programId == pid && r.contactId == c)) = false) :
    (pid, c) ∉ psPairs l := by
  intro hmem
  rcases List.mem_map.mp hmem with ⟨r, hr, hre⟩
  have hpred := List.any_eq_false.mp h r hr
  apply hpred
  have h1 : r.programId = pid := congrArg Prod.fst hre
  have h2 : r.contactId = c := congrArg Prod.snd hre
  simp [h1, h2]

theorem pairUnique_insert (l : List PSRow) (row : PSRow)
    (h : (psPairs l).Nodup)
    (hnot : (row.programId, row.contactId) ∉ psPairs l) :
    (psPairs (l ++ [row])).Nodup := by
  rw [psPairs, List.map_append]
  refine List.Nodup.append h (List.nodup_singleton _) ?_
  intro a ha hb
  have hab : a = (row.programId, row.contactId) := by simpa using hb
  exact hnot (hab ▸ ha)

theorem createProgramState_pairUnique (st : Sys) (pid c : Nat) (st2 : Sys)
    (ps : Option PSRow) (h : PairUnique st)
    (hok : createProgramState st pid (some c) = .ok (st2, ps)) :
    PairUnique st2 := by
  simp only [createProgramState] at hok
  by_cases hany : (st.programStates.any
      (fun r => r.programId == pid && r.contactId == c)) = true
  · rw [if_pos hany] at hok
    cases hok
  · rw [if_neg hany] at hok
    cases hok
    exact pairUnique_insert st.programStates _ h
      (pair_not_mem_of_any_false st.programStates pid c
        (Bool.not_eq_true _ ▸ eq_false_of_ne_true hany))

theorem assignGroupMembersLoop_pairUnique (pid : Nat) :
    ∀ (ms : List Nat) (st : Sys), PairUnique st →
      PairUnique (assignGroupMembersLoop st pid ms).1 := by
  intro ms
  induction ms with
  | nil => intro st h; exact h
  | cons m rest ih =>
    intro st h
    show PairUnique (match createProgramState st pid (some m) with
      | .ok (st2, _) => assignGroupMembersLoop st2 pid rest
      | .error _ => (st, true)).1
    cases hc : createProgramState st pid (some m) with
    | ok p =>
      exact ih p.1 (createProgramState_pairUnique st pid m p.1 p.2 h (by
        rw [hc]))
    | error e => exact h

theorem assignGroupsLoop_pairUnique (pid : Nat) :
    ∀ (gs : List Nat) (st : Sys), PairUnique st →
      PairUnique (assignGroupsLoop st pid gs).1 := by
  intro gs
  induction gs with
  | nil => intro st h; exact h
  | cons g rest ih =>
    intro st h
    show PairUnique (match assignGroupMembersLoop (withGroupAssignment st pid g)
        pid (groupMemberIds (withGroupAssignment st pid g) g) with
      | (st2, true) => (st2, true)
      | (st2, false) => assignGroupsLoop st2 pid rest).1
    have h1 : PairUnique (withGroupAssignment st pid g) := h
    cases hm : assignGroupMembersLoop (withGroupAssignment st pid g) pid
        (groupMemberIds (withGroupAssignment st pid g) g) with
    | mk st2 b =>
      have h2 : PairUnique st2 := by
        have hml := assignGroupMembersLoop_pairUnique pid
          (groupMemberIds (withGroupAssignment st pid g) g)
          (withGroupAssignment st pid g) h1
        rw [hm] at hml
        exact hml
      cases b with
      | true => exact h2
      | false => exact ih st2 h2

theorem assignContactsLoop_pairUnique (pid : Nat) :
    ∀ (cids : List Nat) (st : Sys), PairUnique st →
      PairUnique (assignContactsLoop st pid cids).1 := by
  intro cids
  induction cids with
  | nil => intro st h; exact h
  | cons c rest ih =>
    intro st h
    show PairUnique (match createProgramState (withContactAssignment st pid c)
        pid (some c) with
      | .ok (st2, _) => assignContactsLoop st2 pid rest
      | .error _ => (withContactAssignment st pid c, true)).1
    have h1 : PairUnique (withContactAssignment st pid c) := h
    cases hc : createProgramState (withContactAssignment st pid c) pid (some c) with
    | ok p =>
      exact ih p.1 (createProgramState_pairUnique _ pid c p.1 p.2 h1 (by rw [hc]))
    | error e => exact h1

/-- C4: for every (programId, contactId) pair at most one `ProgramState` row
exists across all operations — message-arrival evaluation (`executeProgram`)
and `assignProgram` both preserve the schema-backed uniqueness invariant — and
a repeated evaluation for an existing pair reuses the state row instead of
inserting a second one (the table's pair list is unchanged). -/
theorem programState_unique (st : Sys) (pid : Nat) (cid : Option Nat)
    (phone : String) (userMessage : Option String) (pd : ProgramData)
    (contactIds groupIds : List Nat) (h : PairUnique st) :
    PairUnique (executeProgram st pid cid phone userMessage pd)
    ∧ (∀ c, cid = some c →
        (∃ r ∈ st.programStates, r.programId = pid ∧ r.contactId = c) →
        psPairs (executeProgram st pid cid phone userMessage pd).programStates
          = psPairs st.programStates)
    ∧ PairUnique (assignProgram st pid contactIds groupIds).1 := by
  refine ⟨?_, ?_, ?_⟩
  · cases cid with
    | none => exact h
    | some c =>
      show PairUnique (match getProgramState st pid (some c) with
        | some ps => execProgramStep pd phone userMessage st ps
        | none =>
          match createProgramState st pid (some c) with
          | .ok (st2, some ps) => execProgramStep pd phone userMessage st2 ps
          | .ok (_, none) => st
          | .error _ => st)
      cases getProgramState st pid (some c) with
      | some ps =>
        unfold PairUnique
        rw [psPairs_execProgramStep]
        exact h
      | none =>
        cases hc : createProgramState st pid (some c) with
        | error e => exact h
        | ok p =>
          have h2 : PairUnique p.1 :=
            createProgramState_pairUnique st pid c p.1 p.2 h (by rw [hc])
          cases hp : p.2 with
          | none =>
            cases p with
            | mk p1 p2 => cases hp; exact h
          | some ps =>
            cases p with
            | mk p1 p2 =>
              cases hp
              unfold PairUnique
              rw [psPairs_execProgramStep]
              exact h2
  · intro c hcid hex
    subst hcid
    have hfind : (st.programStates.find?
        (fun r => r.programId == pid && r.contactId == c)).isSome := by
      rw [List.find?_isSome]
      rcases hex with ⟨r, hr, h1, h2⟩
      exact ⟨r, hr, by simp [h1, h2]⟩
    show psPairs (match getProgramState st pid (some c) with
      | some ps => execProgramStep pd phone userMessage st ps
      | none =>
        match createProgramState st pid (some c) with
        | .ok (st2, some ps) => execProgramStep pd phone userMessage st2 ps
        | .ok (_, none) => st
        | .error _ => st).programStates = psPairs st.programStates
    cases hg : getProgramState st pid (some c) with
    | some ps => exact psPairs_execProgramStep pd phone userMessage st ps
    | none =>
      simp only [getProgramState] at hg
      rw [hg] at hfind
      simp at hfind
  · show PairUnique (match assignContactsLoop st pid contactIds with
      | (st1, true) => (st1, true)
      | (st1, false) => assignGroupsLoop st1 pid groupIds).1
    cases ha : assignContactsLoop st pid contactIds with
    | mk st1 b =>
      have h1 : PairUnique st1 := by
        have := assignContactsLoop_pairUnique pid contactIds st h
        rw [ha] at this
        exact this
      cases b with
      | true => exact h1
      | false => exact assignGroupsLoop_pairUnique pid groupIds st1 h1

/-- One existing state row for program 1 / contact 1; contact 2 is fresh. -/
def stC4 : Sys := { Sys.empty with
  programStates := [⟨1, 1, 1, 0, [], false, none⟩],
  nextProgramStateId := 2 }

theorem programState_unique_witness :
    PairUnique (executeProgram stC4 1 (some 1) "+1" (some "hi") ⟨[.delay 5]⟩)
    ∧ psPairs (executeProgram stC4 1 (some 1) "+1" (some "hi")
        ⟨[.delay 5]⟩).programStates = psPairs stC4.programStates
    ∧ PairUnique (assignProgram stC4 1 [1, 2] []).1 := by
  have h := programState_unique stC4 1 (some 1) "+1" (some "hi") ⟨[.delay 5]⟩
    [1, 2] [] (by unfold PairUnique; decide)
  exact ⟨h.1, h.2.1 1 rfl ⟨⟨1, 1, 1, 0, [], false, none⟩, by decide, rfl, rfl⟩,
    h.2.2⟩

/-! ### C1: the inbound dispatch chain -/

/-- C1 (amended): `processIncomingMessage` runs the chain in the order agent
command interpretation (`processAgentMessage`) first, then active-session
forwarding (`forwardUserMessage`), then ProgramEngine evaluation, and the
first component that claims the message stops the chain — the final state
carries no effect of a later component. -/
theorem processIncomingMessage_chain (st stA stB : Sys) (contact : Option Contact)
    (fromPhone content : String)
    (hfc : findOrCreateContact st fromPhone = (stA, contact))
    (hlog : logInboundMessage stA fromPhone content = stB) :
    (∀ stC, processAgentMessage stB fromPhone content contact = (stC, true) →
      processIncomingMessage st fromPhone content = (stC, .agentSystem))
    ∧ (∀ stC stD, processAgentMessage stB fromPhone content contact = (stC, false) →
      forwardUserMessage stC fromPhone content contact = (stD, true) →
      processIncomingMessage st fromPhone content = (stD, .chatForward))
    ∧ (∀ stC stD, processAgentMessage stB fromPhone content contact = (stC, false) →
      forwardUserMessage stC fromPhone content contact = (stD, false) →
      processIncomingMessage st fromPhone content =
        (processMessagePE stD fromPhone content contact, .programEngine)) := by
  refine ⟨?_, ?_, ?_⟩
  · intro stC hC
    simp [processIncomingMessage, hfc, hlog, hC]
  · intro stC stD hC hD
    simp [processIncomingMessage, hfc, hlog, hC, hD]
  · intro stC stD hC hD
    simp [processIncomingMessage, hfc, hlog, hC, hD]

/-- A contact `+100` with an active chat session bridged to agent phone
`+200`; the contact then texts `ACCEPT`. -/
def stC1 : Sys := { Sys.empty with
  contacts := [⟨1, "User One", "+100", true⟩],
  nextContactId := 2,
  dbSessions := [⟨1, some 1, 7, "k1", "active", none⟩],
  activeSessions := [("k1", ⟨1, some 1, 7, "+100", "+200"⟩)],
  sessionTimeouts := ["k1"] }

/-- C1 counterexample: on the state `stC1` the source chain hands the message
to the agent-command branch, while the spec's order (forwarding first) would
have the active session claim it — the two orders are observably different,
so the chain is not "forwarding first". -/
theorem processIncomingMessage_order_counterexample :
    (processIncomingMessage stC1 "+100" "ACCEPT").2 = Handler.agentSystem
    ∧ (processIncomingMessageSpecOrder stC1 "+100" "ACCEPT").2 = Handler.chatForward
    ∧ Handler.agentSystem ≠ Handler.chatForward := by
  refine ⟨by decide, by decide, by decide⟩

theorem processIncomingMessage_chain_witness :
    processIncomingMessage stC1 "+100" "ACCEPT" =
      ((processAgentMessage (logInboundMessage stC1 "+100" "ACCEPT") "+100" "ACCEPT"
        (some ⟨1, "User One", "+100", true⟩)).1, Handler.agentSystem) := by
  have h := processIncomingMessage_chain stC1 stC1
    (logInboundMessage stC1 "+100" "ACCEPT") (some ⟨1, "User One", "+100", true⟩)
    "+100" "ACCEPT" (by decide) rfl
  exact h.1 _ (by decide)

/-! ### C3: broadcast rate-limit denials -/

/-- The `broadcast_recipients` row with a given id. -/
def findRecipRow (st : Sys) (rid : Nat) : Option BroadcastRecipRow :=
  st.broadcastRecipients.find? (fun r => r.id == rid)

theorem find?_mapIf_ne (l : List BroadcastRecipRow) (i rid : Nat)
    (g : BroadcastRecipRow → BroadcastRecipRow) (hg : ∀ r, (g r).id = r.id)
    (h : ¬ i = rid) :
    (l.map (fun r => if r.id == i then g r else r)).find? (fun r => r.id == rid)
      = l.find? (fun r => r.id == rid) := by
  induction l with
  | nil => rfl
  | cons r rest ih =>
    simp only [List.map_cons]
    by_cases hr : r.id = i
    · have e1 : (if r.id == i then g r else r) = g r := by simp [hr]
      rw [e1]
      have e2 : ((g r).id == rid) = false := by
        simp only [beq_eq_false_iff_ne, ne_eq, hg r, hr]
        exact h
      have e3 : (r.id == rid) = false := by
        simp only [beq_eq_false_iff_ne, ne_eq, hr]
        exact h
      rw [List.find?_cons, List.find?_cons, e2, e3]
      exact ih
    · have e1 : (if r.id == i then g r else r) = r := by simp [hr]
      rw [e1, List.find?_cons, List.find?_cons]
      cases hrr : (r.id == rid) with
      | true => rfl
      | false => exact ih

theorem find?_mapIf_self (l : List BroadcastRecipRow) (i : Nat)
    (g : BroadcastRecipRow → BroadcastRecipRow) (hg : ∀ r, (g r).id = r.id) :
    (l.map (fun r => if r.id == i then g r else r)).find? (fun r => r.id == i)
      = (l.find? (fun r => r.id == i)).map g := by
  induction l with
  | nil => rfl
  | cons r rest ih =>
    simp only [List.map_cons]
    by_cases hr : r.id = i
    · have e1 : (if r.id == i then g r else r) = g r := by simp [hr]
      have e2 : ((g r).id == i) = true := by simp [hg r, hr]
      have e3 : (r.id == i) = true := by simp [hr]
      rw [e1, List.find?_cons, List.find?_cons, e2, e3]
      rfl
    · have e1 : (if r.id == i then g r else r) = r := by simp [hr]
      have e2 : (r.id == i) = false := by simp [hr]
      rw [e1, List.find?_cons, List.find?_cons, e2]
      exact ih

theorem findRecipRow_markSent_other (st : Sys) (i rid : Nat) (h : ¬ i = rid) :
    findRecipRow (markRecipientSent st i) rid = findRecipRow st rid :=
  find?_mapIf_ne st.broadcastRecipients i rid _ (fun _ => rfl) h

theorem findRecipRow_markFailed_other (st : Sys) (i rid : Nat) (e : String)
    (h : ¬ i = rid) :
    findRecipRow (markRecipientFailed st i e) rid = findRecipRow st rid :=
  find?_mapIf_ne st.broadcastRecipients i rid _ (fun _ => rfl) h

theorem findRecipRow_markFailed_self (st : Sys) (i : Nat) (e : String) :
    findRecipRow (markRecipientFailed st i e) i
      = (findRecipRow st i).map
          (fun x => { x with status := "failed", errorMessage := some e }) :=
  find?_mapIf_self st.broadcastRecipients i _ (fun _ => rfl)

/-- Rows not named by the remaining recipient list are untouched by the
broadcast send loop. -/
theorem processBroadcastLoop_frame (content : String) :
    ∀ (rs : List BroadcastRecipRow) (st : Sys) (sc fc rid : Nat),
      (∀ x ∈ rs, x.id ≠ rid) →
      findRecipRow (processBroadcastLoop content st sc fc rs).1 rid
        = findRecipRow st rid := by
  intro rs
  induction rs with
  | nil => intro st sc fc rid _; rfl
  | cons r rest ih =>
    intro st sc fc rid h
    have hr : r.id ≠ rid := h r (List.mem_cons_self r rest)
    have hrest : ∀ x ∈ rest, x.id ≠ rid :=
      fun x hx => h x (List.mem_cons_of_mem r hx)
    cases hgc : checkGlobalRateLimit st.rateCfg st.rateDb st.now with
    | denied w cu li ra =>
      have hred : processBroadcastLoop content st sc fc (r :: rest)
          = processBroadcastLoop content { st with now := st.now + 60000 }
              sc fc rest := by
        simp only [processBroadcastLoop, hgc]
      rw [hred, ih _ sc fc rid hrest]
      rfl
    | allowed =>
      cases hpc : checkPhoneRateLimit st.rateCfg st.rateDb r.phone st.now with
      | denied w cu li ra rt =>
        have hred : processBroadcastLoop content st sc fc (r :: rest)
            = processBroadcastLoop content
                (markRecipientFailed st r.id "Rate limit exceeded")
                sc (fc + 1) rest := by
          simp only [processBroadcastLoop, hgc, hpc]
        rw [hred, ih _ sc (fc + 1) rid hrest]
        exact findRecipRow_markFailed_other st r.id rid _ hr
      | allowed =>
        have hred : processBroadcastLoop content st sc fc (r :: rest)
            = processBroadcastLoop content
                { (markRecipientSent
                    { (sendSys st r.phone content "broadcast") with
                      rateDb := updateRateLimit
                        (sendSys st r.phone content "broadcast").rateDb r.phone
                        (sendSys st r.phone content "broadcast").now } r.id) with
                  now := (markRecipientSent
                    { (sendSys st r.phone content "broadcast") with
                      rateDb := updateRateLimit
                        (sendSys st r.phone content "broadcast").rateDb r.phone
                        (sendSys st r.phone content "broadcast").now } r.id).now
                    + 200 }
                (sc + 1) fc rest := by
          simp only [processBroadcastLoop, hgc, hpc]
        rw [hred, ih _ (sc + 1) fc rid hrest]
        exact findRecipRow_markSent_other
          { (sendSys st r.phone content "broadcast") with
            rateDb := updateRateLimit
              (sendSys st r.phone content "broadcast").rateDb r.phone
              (sendSys st r.phone content "broadcast").now } r.id rid hr

/-- C3 (amended): in the broadcast send loop, a global rate-limit denial
waits about 60 seconds and then moves on to the next recipient — the denied
recipient's row is left as it was (still `pending`), not retried in this
run — and a per-phone denial marks that recipient's row `failed` with error
message `Rate limit exceeded` (not `rate_limited`) and moves on. -/
theorem processBroadcastLoop_denials (content : String) (st : Sys) (sc fc : Nat)
    (r : BroadcastRecipRow) (rest : List BroadcastRecipRow)
    (hfresh : ∀ x ∈ rest, x.id ≠ r.id) :
    (checkGlobalRateLimit st.rateCfg st.rateDb st.now ≠ .allowed →
      findRecipRow (processBroadcastLoop content st sc fc (r :: rest)).1 r.id
        = findRecipRow st r.id)
    ∧ (checkGlobalRateLimit st.rateCfg st.rateDb st.now = .allowed →
      checkPhoneRateLimit st.rateCfg st.rateDb r.phone st.now ≠ .allowed →
      findRecipRow (processBroadcastLoop content st sc fc (r :: rest)).1 r.id
        = (findRecipRow st r.id).map
            (fun x => { x with
                          status := "failed",
                          errorMessage := some "Rate limit exceeded" })) := by
  constructor
  · intro hg
    cases hgc : checkGlobalRateLimit st.rateCfg st.rateDb st.now with
    | allowed => exact absurd hgc hg
    | denied w cu li ra =>
      have hred : processBroadcastLoop content st sc fc (r :: rest)
          = processBroadcastLoop content { st with now := st.now + 60000 }
              sc fc rest := by
        simp only [processBroadcastLoop, hgc]
      rw [hred, processBroadcastLoop_frame content rest _ sc fc r.id hfresh]
      rfl
  · intro hg hp
    cases hpc : checkPhoneRateLimit st.rateCfg st.rateDb r.phone st.now with
    | allowed => exact absurd hpc hp
    | denied w cu li ra rt =>
      have hred : processBroadcastLoop content st sc fc (r :: rest)
          = processBroadcastLoop content
              (markRecipientFailed st r.id "Rate limit exceeded")
              sc (fc + 1) rest := by
        simp only [processBroadcastLoop, hg, hpc]
      rw [hred, processBroadcastLoop_frame content rest _ sc (fc + 1) r.id hfresh]
      exact findRecipRow_markFailed_self st r.id "Rate limit exceeded"

/-- Global minute limit 1, already consumed by `+9`'s earlier send: the first
recipient hits the global denial; after the 60 s pause the minute window has
rolled over and the second recipient is sent. -/
def stC3a : Sys := { Sys.empty with
  rateCfg := ⟨10, 100, 500, 1, 100, 1000⟩,
  rateDb := [⟨"+9", "minute", 0, 1⟩],
  broadcasts := [⟨1, "b", "hello", 2, 0, 0, "sending", none, none, none, "admin"⟩],
  broadcastRecipients :=
    [⟨1, 1, some 1, none, "+1", "pending", none, none⟩,
     ⟨2, 1, some 2, none, "+2", "pending", none, none⟩],
  nextBroadcastId := 2,
  nextRecipientId := 3 }

/-- Per-phone minute limit 0: the only recipient hits the phone denial. -/
def stC3b : Sys := { Sys.empty with
  rateCfg := ⟨0, 100, 500, 100, 1000, 5000⟩,
  broadcasts := [⟨1, "b", "hello", 1, 0, 0, "sending", none, none, none, "admin"⟩],
  broadcastRecipients := [⟨1, 1, some 1, none, "+1", "pending", none, none⟩],
  nextBroadcastId := 2,
  nextRecipientId := 2 }

/-- C3 counterexample: on `stC3a` the globally-denied first recipient ends the
run still `pending` with no send to its phone while the later recipient was
processed (`sent`) — the loop skipped it rather than retrying it; on `stC3b`
the phone-denied recipient ends `failed` with error `Rate limit exceeded`,
not `rate_limited`. -/
theorem processBroadcast_denials_counterexample :
    ((findRecipRow (processBroadcast stC3a 1) 1).map (·.status) = some "pending"
      ∧ (findRecipRow (processBroadcast stC3a 1) 2).map (·.status) = some "sent"
      ∧ ((processBroadcast stC3a 1).sent.filter
          (fun s => s.toPhone == "+1")).length = 0)
    ∧ ((findRecipRow (processBroadcast stC3b 1) 1).map (·.status) = some "failed"
      ∧ (findRecipRow (processBroadcast stC3b 1) 1).map (·.errorMessage)
          = some (some "Rate limit exceeded")
      ∧ "failed" ≠ "rate_limited") := by
  exact ⟨⟨by decide, by decide, by decide⟩, ⟨by decide, by decide, by decide⟩⟩

theorem processBroadcastLoop_denials_witness :
    (findRecipRow (processBroadcastLoop "hello" stC3a 0 0
        [⟨1, 1, some 1, none, "+1", "pending", none, none⟩,
         ⟨2, 1, some 2, none, "+2", "pending", none, none⟩]).1 1
      = findRecipRow stC3a 1)
    ∧ (findRecipRow (processBroadcastLoop "hello" stC3b 0 0
        [⟨1, 1, some 1, none, "+1", "pending", none, none⟩]).1 1
      = (findRecipRow stC3b 1).map
          (fun x => { x with
                        status := "failed",
                        errorMessage := some "Rate limit exceeded" })) := by
  constructor
  · exact (processBroadcastLoop_denials "hello" stC3a 0 0
      ⟨1, 1, some 1, none, "+1", "pending", none, none⟩
      [⟨2, 1, some 2, none, "+2", "pending", none, none⟩] (by decide)).1 (by decide)
  · exact (processBroadcastLoop_denials "hello" stC3b 0 0
      ⟨1, 1, some 1, none, "+1", "pending", none, none⟩ [] (by decide)).2
      (by decide) (by decide)

/-! ### C9: forcing an agent offline ends its sessions -/

theorem lookupAssoc_erase_self {α : Type} (m : List (String × α)) (k : String) :
    lookupAssoc (eraseAssoc m k) k = none := by
  induction m with
  | nil => rfl
  | cons p rest ih =>
    by_cases hp : p.1 = k
    · have e : eraseAssoc (p :: rest) k = eraseAssoc rest k := by
        simp [eraseAssoc, List.filter_cons, hp]
      rw [e]
      exact ih
    · have e : eraseAssoc (p :: rest) k = p :: eraseAssoc rest k := by
        simp [eraseAssoc, List.filter_cons, hp]
      rw [e]
      unfold lookupAssoc
      rw [List.find?_cons, show (p.1 == k) = false by simp [hp]]
      exact ih

theorem lookupAssoc_erase_other {α : Type} (m : List (String × α)) (k k' : String)
    (h : k' ≠ k) :
    lookupAssoc (eraseAssoc m k) k' = lookupAssoc m k' := by
  induction m with
  | nil => rfl
  | cons p rest ih =>
    by_cases hp : p.1 = k
    · have e : eraseAssoc (p :: rest) k = eraseAssoc rest k := by
        simp [eraseAssoc, List.filter_cons, hp]
      rw [e, ih]
      unfold lookupAssoc
      rw [List.find?_cons, show (p.1 == k') = false by
        rw [hp]
        simp
        exact fun e2 => h e2.symm]
    · have e : eraseAssoc (p :: rest) k = p :: eraseAssoc rest k := by
        simp [eraseAssoc, List.filter_cons, hp]
      rw [e]
      unfold lookupAssoc
      rw [List.find?_cons, List.find?_cons]
      cases hpk : (p.1 == k') with
      | true => rfl
      | false => exact ih

theorem mem_of_lookupAssoc {α : Type} (m : List (String × α)) (k : String) (v : α)
    (h : lookupAssoc m k = some v) : (k, v) ∈ m := by
  unfold lookupAssoc at h
  cases hf : m.find? (fun p => p.1 == k) with
  | none => rw [hf] at h; cases h
  | some q =>
    rw [hf] at h
    have hq := List.mem_of_find?_eq_some hf
    have hqk : q.1 = k := by simpa using List.find?_some hf
    have hqv : q.2 = v := by simpa using h
    obtain ⟨q1, q2⟩ := q
    simp only at hqk hqv
    subst hqk
    subst hqv
    exact hq

theorem lookupAssoc_eq_none_iff {α : Type} (m : List (String × α)) (k : String) :
    lookupAssoc m k = none ↔ ∀ p ∈ m, p.1 ≠ k := by
  unfold lookupAssoc
  simp [List.find?_eq_none]

/-- The `if (!session) return` branch of `endChatSession`. -/
theorem endChatSession_lookup_none (st : Sys) (k r : String)
    (h : lookupAssoc st.activeSessions k = none) :
    endChatSession st k r = st := by
  unfold endChatSession
  rw [h]

/-- The active branch of `endChatSession`, written as one state update. -/
theorem endChatSession_lookup_some (st : Sys) (k r : String) (d : SessionData)
    (h : lookupAssoc st.activeSessions k = some d) :
    endChatSession st k r = { st with
      dbSessions := st.dbSessions.map (fun row =>
        if row.id == d.sessionId then
          { row with status := r, endedAt := some st.now }
        else row),
      sent := (st.sent ++
        [⟨d.userPhone, "השיחה עם הסוכן הסתיימה. תודה!", "system"⟩]) ++
        [⟨d.agentPhone, "השיחה עם " ++ d.userPhone ++ " הסתיימה.", "system"⟩],
      activeSessions := eraseAssoc st.activeSessions k,
      sessionTimeouts := st.sessionTimeouts.filter (· != k) } := by
  unfold endChatSession
  rw [h]
  rfl

/-- Every `chat_sessions` row with the given id is ended with the given
status at the given instant. -/
def SessionOffline (st : Sys) (sid t : Nat) : Prop :=
  ∀ row ∈ st.dbSessions, row.id = sid →
    row.status = "agent_offline" ∧ row.endedAt = some t

theorem endChatSession_now (st : Sys) (k r : String) :
    (endChatSession st k r).now = st.now := by
  cases h : lookupAssoc st.activeSessions k with
  | none => rw [endChatSession_lookup_none st k r h]
  | some d => rw [endChatSession_lookup_some st k r d h]

theorem endChatSession_ids (st : Sys) (k r : String) :
    (endChatSession st k r).dbSessions.map (·.id)
      = st.dbSessions.map (·.id) := by
  cases h : lookupAssoc st.activeSessions k with
  | none => rw [endChatSession_lookup_none st k r h]
  | some d =>
    rw [endChatSession_lookup_some st k r d h]
    show (st.dbSessions.map _).map _ = _
    rw [List.map_map]
    apply List.map_congr_left
    intro row _
    by_cases hid : row.id = d.sessionId <;> simp [Function.comp, hid]

theorem endChatSession_establishes (st : Sys) (k : String) (d : SessionData)
    (h : lookupAssoc st.activeSessions k = some d) :
    SessionOffline (endChatSession st k "agent_offline") d.sessionId st.now := by
  rw [endChatSession_lookup_some st k _ d h]
  intro row hrow hid
  rcases List.mem_map.mp hrow with ⟨orig, ho, he⟩
  by_cases hoid : orig.id = d.sessionId
  · rw [← he]
    simp [hoid]
  · rw [← he] at hid
    simp [hoid] at hid

theorem endChatSession_preserves_offline (st : Sys) (k : String) (sid t : Nat)
    (ht : st.now = t) (h : SessionOffline st sid t) :
    SessionOffline (endChatSession st k "agent_offline") sid t := by
  cases hl : lookupAssoc st.activeSessions k with
  | none =>
    rw [endChatSession_lookup_none st k _ hl]
    exact h
  | some d =>
    rw [endChatSession_lookup_some st k _ d hl]
    intro row hrow hid
    rcases List.mem_map.mp hrow with ⟨orig, ho, he⟩
    by_cases hoid : orig.id = d.sessionId
    · rw [← he]
      simp [hoid, ht]
    · rw [← he] at hid ⊢
      simp [hoid] at hid ⊢
      exact h orig ho hid

theorem endChatSession_preserves_lookup_none (st : Sys) (k r k0 : String)
    (h : lookupAssoc st.activeSessions k0 = none) :
    lookupAssoc (endChatSession st k r).activeSessions k0 = none := by
  cases hl : lookupAssoc st.activeSessions k with
  | none =>
    rw [endChatSession_lookup_none st k r hl]
    exact h
  | some d =>
    rw [endChatSession_lookup_some st k r d hl]
    show lookupAssoc (eraseAssoc st.activeSessions k) k0 = none
    by_cases hk : k0 = k
    · rw [hk]
      exact lookupAssoc_erase_self _ _
    · rw [lookupAssoc_erase_other _ _ _ hk]
      exact h

theorem endChatSession_subset (st : Sys) (k r : String) :
    ∀ p ∈ (endChatSession st k r).activeSessions, p ∈ st.activeSessions := by
  cases hl : lookupAssoc st.activeSessions k with
  | none =>
    rw [endChatSession_lookup_none st k r hl]
    intro p hp
    exact hp
  | some d =>
    rw [endChatSession_lookup_some st k r d hl]
    intro p hp
    exact List.mem_of_mem_filter hp

theorem endSessionList_now :
    ∀ (keys : List String) (st : Sys), (endSessionList st keys).now = st.now := by
  intro keys
  induction keys with
  | nil => intro st; rfl
  | cons k rest ih =>
    intro st
    show (endSessionList (endChatSession st k "agent_offline") rest).now = st.now
    rw [ih, endChatSession_now]

theorem endSessionList_ids :
    ∀ (keys : List String) (st : Sys),
      (endSessionList st keys).dbSessions.map (·.id)
        = st.dbSessions.map (·.id) := by
  intro keys
  induction keys with
  | nil => intro st; rfl
  | cons k rest ih =>
    intro st
    show (endSessionList (endChatSession st k "agent_offline")
      rest).dbSessions.map (·.id) = _
    rw [ih, endChatSession_ids]

theorem endSessionList_preserves_offline :
    ∀ (keys : List String) (st : Sys) (sid t : Nat), st.now = t →
      SessionOffline st sid t → SessionOffline (endSessionList st keys) sid t := by
  intro keys
  induction keys with
  | nil => intro st sid t _ h; exact h
  | cons k rest ih =>
    intro st sid t ht h
    exact ih (endChatSession st k "agent_offline") sid t
      (by rw [endChatSession_now, ht])
      (endChatSession_preserves_offline st k sid t ht h)

theorem endSessionList_preserves_lookup_none :
    ∀ (keys : List String) (st : Sys) (k0 : String),
      lookupAssoc st.activeSessions k0 = none →
      lookupAssoc (endSessionList st keys).activeSessions k0 = none := by
  intro keys
  induction keys with
  | nil => intro st k0 h; exact h
  | cons k rest ih =>
    intro st k0 h
    exact ih (endChatSession st k "agent_offline") k0
      (endChatSession_preserves_lookup_none st k _ k0 h)

theorem endSessionList_subset :
    ∀ (keys : List String) (st : Sys) (p : String × SessionData),
      p ∈ (endSessionList st keys).activeSessions → p ∈ st.activeSessions := by
  intro keys
  induction keys with
  | nil => intro st p hp; exact hp
  | cons k rest ih =>
    intro st p hp
    exact endChatSession_subset st k "agent_offline" p
      (ih (endChatSession st k "agent_offline") p hp)

/-- Folding `endChatSession _ "agent_offline"` over a key list ends the db row
of any listed in-memory session and removes it from the map. -/
theorem endSessionList_ends (sid : Nat) (key : String) :
    ∀ (keys : List String) (st : Sys) (t : Nat) (d : SessionData),
      key ∈ keys → st.now = t →
      lookupAssoc st.activeSessions key = some d → d.sessionId = sid →
      SessionOffline (endSessionList st keys) sid t
      ∧ lookupAssoc (endSessionList st keys).activeSessions key = none := by
  intro keys
  induction keys with
  | nil => intro st t d hk; cases hk
  | cons k rest ih =>
    intro st t d hk ht hl hd
    by_cases hkk : k = key
    · subst hkk
      have h1 : SessionOffline (endChatSession st k "agent_offline") sid t := by
        have he := endChatSession_establishes st k d hl
        rw [hd, ht] at he
        exact he
      have h2 : lookupAssoc (endChatSession st k "agent_offline").activeSessions
          k = none := by
        rw [endChatSession_lookup_some st k _ d hl]
        exact lookupAssoc_erase_self _ _
      exact ⟨endSessionList_preserves_offline rest _ sid t
          (by rw [endChatSession_now, ht]) h1,
        endSessionList_preserves_lookup_none rest _ k h2⟩
    · have hkr : key ∈ rest := by
        rcases List.mem_cons.mp hk with h | h
        · exact absurd h.symm hkk
        · exact h
      have hl2 : lookupAssoc (endChatSession st k "agent_offline").activeSessions
          key = some d := by
        cases hlk : lookupAssoc st.activeSessions k with
        | none =>
          rw [endChatSession_lookup_none _ _ _ hlk]
          exact hl
        | some d2 =>
          rw [endChatSession_lookup_some _ _ _ d2 hlk]
          show lookupAssoc (eraseAssoc st.activeSessions k) key = some d
          rw [lookupAssoc_erase_other _ _ _ (fun he => hkk he.symm)]
          exact hl
      exact ih (endChatSession st k "agent_offline") t d hkr
        (by rw [endChatSession_now, ht]) hl2 hd

/-- C9: `updateAgentAvailability(agentId, false)` ends every active
`chat_sessions` row of that agent with reason `agent_offline` — the row gets
status `agent_offline` and `ended_at` set, its key is removed from the
in-memory routing map, and a subsequent active-session forward check for that
session's contact returns false (assuming the map holds at most one session
per user phone). -/
theorem updateAgentAvailability_offline (st : Sys) (aid : Nat)
    (huser : ∀ p ∈ st.activeSessions, ∀ q ∈ st.activeSessions,
      p.2.userPhone = q.2.userPhone → p.1 = q.1) :
    ∀ s ∈ st.dbSessions, s.agentId = aid → s.status = "active" →
    ∀ d, lookupAssoc st.activeSessions s.sessionKey = some d → d.sessionId = s.id →
      (∀ row ∈ (updateAgentAvailability st aid false).dbSessions, row.id = s.id →
        row.status = "agent_offline" ∧ row.endedAt = some st.now)
      ∧ s.id ∈ (updateAgentAvailability st aid false).dbSessions.map (·.id)
      ∧ lookupAssoc (updateAgentAvailability st aid false).activeSessions
          s.sessionKey = none
      ∧ ∀ (msg : String) (contact : Option Contact),
          (forwardUserMessage (updateAgentAvailability st aid false)
            d.userPhone msg contact).2 = false := by
  intro s hs hsa hss d hld hdid
  rw [show updateAgentAvailability st aid false = endSessionList
      { st with agents := st.agents.map (fun a =>
          if a.id == aid then { a with isAvailable := false } else a) }
      ((({ st with agents := st.agents.map (fun a =>
          if a.id == aid then { a with isAvailable := false } else a) } :
            Sys).dbSessions.filter
        (fun s2 => s2.agentId == aid && s2.status == "active")).map (·.sessionKey))
    from rfl]
  generalize hA : ({ st with agents := st.agents.map (fun a =>
      if a.id == aid then { a with isAvailable := false } else a) } : Sys) = stAg
  have hAS : stAg.activeSessions = st.activeSessions := by rw [← hA]
  have hDB : stAg.dbSessions = st.dbSessions := by rw [← hA]
  have hNOW : stAg.now = st.now := by rw [← hA]
  have hkmem : s.sessionKey ∈ (stAg.dbSessions.filter
      (fun s2 => s2.agentId == aid && s2.status == "active")).map (·.sessionKey) := by
    rw [hDB]
    exact List.mem_map.mpr ⟨s, List.mem_filter.mpr ⟨hs, by simp [hsa, hss]⟩, rfl⟩
  have hmain := endSessionList_ends s.id s.sessionKey
    ((stAg.dbSessions.filter
      (fun s2 => s2.agentId == aid && s2.status == "active")).map (·.sessionKey))
    stAg st.now d hkmem hNOW (by rw [hAS]; exact hld) hdid
  refine ⟨?_, ?_, hmain.2, ?_⟩
  · intro row hrow hid
    exact hmain.1 row hrow hid
  · rw [endSessionList_ids, hDB]
    exact List.mem_map.mpr ⟨s, hs, rfl⟩
  · intro msg contact
    have hnone : getActiveSessionByUser (endSessionList stAg
        ((stAg.dbSessions.filter
          (fun s2 => s2.agentId == aid && s2.status == "active")).map
            (·.sessionKey))) d.userPhone = none := by
      unfold getActiveSessionByUser
      rw [List.find?_eq_none]
      intro p hp
      have hpm : p ∈ st.activeSessions := by
        have := endSessionList_subset _ _ p hp
        rw [hAS] at this
        exact this
      intro hpe
      have hdm : (s.sessionKey, d) ∈ st.activeSessions :=
        mem_of_lookupAssoc st.activeSessions s.sessionKey d hld
      have hk := huser p hpm (s.sessionKey, d) hdm (by simpa using hpe)
      have hnone2 := hmain.2
      rw [lookupAssoc_eq_none_iff] at hnone2
      exact hnone2 p hp hk
    simp only [forwardUserMessage, hnone]

/-- Agent 7 is available with one active session, bridged in memory. -/
def stC9 : Sys := { Sys.empty with
  now := 5,
  contacts := [⟨1, "User One", "+100", true⟩],
  agents := [⟨7, "Agent", "+200", true, true, [], 3⟩],
  dbSessions := [⟨1, some 1, 7, "k1", "active", none⟩],
  activeSessions := [("k1", ⟨1, some 1, 7, "+100", "+200"⟩)],
  sessionTimeouts := ["k1"] }

theorem updateAgentAvailability_offline_witness :
    (∀ row ∈ (updateAgentAvailability stC9 7 false).dbSessions, row.id = 1 →
      row.status = "agent_offline" ∧ row.endedAt = some 5)
    ∧ lookupAssoc (updateAgentAvailability stC9 7 false).activeSessions "k1" = none
    ∧ (forwardUserMessage (updateAgentAvailability stC9 7 false)
        "+100" "hi" none).2 = false := by
  have h := updateAgentAvailability_offline stC9 7 (by decide)
    ⟨1, some 1, 7, "k1", "active", none⟩ (by decide) rfl rfl
    ⟨1, some 1, 7, "+100", "+200"⟩ (by decide) rfl
  exact ⟨h.1, h.2.2.1, h.2.2.2 "hi" none⟩

end ChicagoSms
